import Mathlib

/-!
Job lifecycle and cascade synchronisation (runners/sync/logging.go) and the
HTTP handlers around it (api/jobs, api/organizations, api/users).

A shallow embedding of the lifecycle operations of the sync runner (`start`,
`status`, `jobFail`, `jobCancel`, `jobError`, `jobSuccess`, `updateProject`,
`updateJobTemplate`, `addActivity`) and of the handlers `Cancel`, `CancelInfo`,
`GetJobs`, `AddOrganization`, `UpdateOrganization`, `RemoveOrganization`,
`AddUser`, `UpdateUser`, `DeleteUser`.

* The document store (mgo) is explicit state: every collection is a list of
  `(_id, document)` pairs and a document is a list of `(field, value)` pairs.
* `UpdateId(id, bson.M{"$set": m})` is a partial update of the document with
  that `_id`; it fails with `ErrNotFound` when there is no such document and
  may fail for reasons outside the program (the fault oracle of the state).
* Every issued `$set` update is appended to a trace together with its outcome,
  every store call of any method to the list of calls, and every logged line
  to the log.
* `time.Now()` and `bson.NewObjectId()` are arguments of each operation.
* Each Go function of logging.go receives `t types.SyncJob` and assigns to
  `t.Job.*`; the embedding returns the value of `t` at the end of the function
  together with the new store.
* `types.SyncJob` is declared outside the files embedded here. A sequence of
  operations is run both ways: with the Job value handed from one operation to
  the next (`runOps`) and with every operation on its own copy of the caller's
  tuple (`runOpsByValue`).
* A handler returns the replies it wrote through gin.Context, in order, and
  the new store.
-/

namespace Tensor

/-! ## time.Time and time.Duration -/

/-- A `time.Time` instant, counted in nanoseconds since the zero Time
(January 1, year 1, 00:00:00 UTC). -/
structure Time where
  ns : Int
  deriving DecidableEq, Repr

/-- A `time.Duration`: an int64 count of nanoseconds. -/
structure Duration where
  ns : Int
  deriving DecidableEq, Repr

/-- Largest `time.Duration` (`1<<63 - 1` nanoseconds, about 292 years). -/
def maxDuration : Int := 2 ^ 63 - 1

/-- Smallest `time.Duration` (`-1 << 63` nanoseconds). -/
def minDuration : Int := -(2 ^ 63)

/-- Go's `t.Sub(u)`: the duration `t-u`; if the result exceeds the maximum (or
minimum) value that can be stored in a Duration, the maximum (or minimum)
duration is returned. -/
def Time.Sub (t u : Time) : Duration :=
  if t.ns - u.ns > maxDuration then ⟨maxDuration⟩
  else if t.ns - u.ns < minDuration then ⟨minDuration⟩
  else ⟨t.ns - u.ns⟩

/-- Nanoseconds in `time.Minute`. -/
def Minute : Int := 60 * 1000000000

/-- Go's `d.Minutes()`: `min := d / Minute; nsec := d % Minute;
float64(min) + float64(nsec)/(60*1e9)` with Go's truncating `/` and `%`.
The float64 result is represented by the rational number it rounds. -/
def Duration.Minutes (d : Duration) : ℚ :=
  (Int.tdiv d.ns Minute : ℚ) + (Int.tmod d.ns Minute : ℚ) / (60 * 1000000000)

/-! ## Documents and collections -/

/-- A `bson.ObjectId`. -/
abbrev ObjectId := String

/-- The BSON values the lifecycle operations write. -/
inductive Value where
  | str (s : String)
  | bool (b : Bool)
  | time (t : Time)
  | float (q : ℚ)
  | strs (l : List String)
  | oid (o : ObjectId)
  deriving DecidableEq

/-- A stored document, or a `bson.M` field map: field names with values. -/
structure Doc where
  fields : List (String × Value)
  deriving DecidableEq

/-- Field lookup in an association list of fields. -/
def fieldGet : List (String × Value) → String → Option Value
  | [], _ => none
  | (k, v) :: rest, key => if k = key then some v else fieldGet rest key

/-- Assignment of one field: overwrite it where it stands, else add it. -/
def fieldSet : List (String × Value) → String → Value → List (String × Value)
  | [], key, val => [(key, val)]
  | (k, v) :: rest, key, val =>
    if k = key then (key, val) :: rest else (k, v) :: fieldSet rest key val

/-- Value of field `key` of a document. -/
def Doc.get (d : Doc) (key : String) : Option Value := fieldGet d.fields key

/-- The document with field `key` set to `val`. -/
def Doc.set (d : Doc) (key : String) (val : Value) : Doc := ⟨fieldSet d.fields key val⟩

/-- Effect of the update operator `$set` with field map `m` on document `d`:
every field of `m` is assigned, every other field of `d` is kept. -/
def Doc.applySet (d : Doc) (m : Doc) : Doc :=
  m.fields.foldl (fun acc kv => acc.set kv.1 kv.2) d

/-- A collection: documents keyed by `_id`. -/
abbrev Collection := List (ObjectId × Doc)

/-- The document with the given `_id` (`FindId(id).One`). -/
def findId : Collection → ObjectId → Option Doc
  | [], _ => none
  | (i, d) :: rest, id => if i = id then some d else findId rest id

/-- The collection with `$set m` applied to the document with `_id = id`. -/
def setId : Collection → ObjectId → Doc → Collection
  | [], _, _ => []
  | (i, d) :: rest, id, m =>
    if i = id then (i, d.applySet m) :: rest else (i, d) :: setId rest id m

/-- The collections reached through package `db`. -/
inductive Coll where
  | ActivityStream | Credentials | Hosts | Inventories | JobTemplates
  | Jobs | Organizations | Projects | Teams | Users
  deriving DecidableEq, Repr

/-- Errors of a store call: mgo's `ErrNotFound`, or a failure of the store
itself (connection, server), or a duplicate `_id` on insert. -/
inductive StoreErr where
  | ErrNotFound
  | fault
  | DuplicateKey
  deriving DecidableEq, Repr

/-- One issued `UpdateId` call: collection, `_id`, the `$set` map, outcome. -/
structure Write where
  coll : Coll
  id : ObjectId
  set : Doc
  err : Option StoreErr
  deriving DecidableEq

/-- The methods of an mgo collection that the program calls. -/
inductive Method where
  | Find | Insert | UpdateId | UpdateAll | RemoveId | RemoveAll
  deriving DecidableEq, Repr

/-- One store call of any kind: collection, method, outcome. -/
structure Call where
  coll : Coll
  method : Method
  err : Option StoreErr
  deriving DecidableEq, Repr

/-- The state outside the program: the stored collections, the fault oracle
(the outcome the store gives to the next calls, `true` = the call fails; an
exhausted oracle means no fault), the trace of issued updates and the error
log; `calls` lists every store call made, of any method, in order. -/
structure DB where
  cols : Coll → Collection
  faults : List Bool
  trace : List Write
  log : List String
  calls : List Call := []

/-- Replace one collection. -/
def DB.setColl (db : DB) (c : Coll) (docs : Collection) : DB :=
  { db with cols := fun c' => if c' = c then docs else db.cols c' }

/-- Result of `db.C().UpdateId(id, bson.M{"$set": m})`: the error (if any) and
the next state. The call is recorded in the trace. A failed call changes no
document. -/
def UpdateId (c : Coll) (id : ObjectId) (m : Doc) (db : DB) : Option StoreErr × DB :=
  let fault := db.faults.headD false
  let db1 := { db with faults := db.faults.tail }
  if fault then
    (some .fault, { db1 with trace := db1.trace ++ [⟨c, id, m, some .fault⟩],
                             calls := db1.calls ++ [⟨c, .UpdateId, some .fault⟩] })
  else
    match findId (db1.cols c) id with
    | none =>
      (some .ErrNotFound, { db1 with trace := db1.trace ++ [⟨c, id, m, some .ErrNotFound⟩],
                                     calls := db1.calls ++ [⟨c, .UpdateId, some .ErrNotFound⟩] })
    | some _ =>
      (none, { (db1.setColl c (setId (db1.cols c) id m)) with
                 trace := db1.trace ++ [⟨c, id, m, none⟩],
                 calls := db1.calls ++ [⟨c, .UpdateId, none⟩] })

/-- Effect of `log.WithFields(...).Errorln(msg)`. -/
def DB.Errorln (db : DB) (msg : String) : DB :=
  { db with log := db.log ++ [msg] }

/-- The Go idiom used at every store call of logging.go:
`if err := db.C().UpdateId(id, d); err != nil { log...Errorln(msg) }`.
The error is logged and not returned. -/
def updateOrLog (c : Coll) (id : ObjectId) (m : Doc) (msg : String) (db : DB) : DB :=
  match UpdateId c id m db with
  | (some _, db1) => db1.Errorln msg
  | (none, db1) => db1

/-! ## The job tuple -/

/-- The fields of the Job that the lifecycle operations read or assign. -/
structure Job where
  ID : ObjectId
  Status : String
  Started : Time
  Finished : Time
  Failed : Bool
  ResultStdout : String
  JobExplanation : String
  JobARGS : List String
  JobENV : List String
  JobCWD : String
  deriving DecidableEq

/-- The owning Project, as far as the operations read it. -/
structure Project where
  ID : ObjectId
  deriving DecidableEq

/-- The owning JobTemplate, as far as the operations read it. -/
structure JobTemplate where
  ID : ObjectId
  deriving DecidableEq

/-- The `types.SyncJob` tuple handed to every lifecycle operation. -/
structure SyncJob where
  Job : Job
  Project : Project
  Template : JobTemplate
  deriving DecidableEq

/-! ## runners/sync/logging.go -/

/-- Go `updateProject`. -/
def updateProject (t : SyncJob) (db : DB) : DB :=
  let d : Doc := ⟨[("last_updated", .time t.Job.Finished),
                   ("last_update_failed", .bool t.Job.Failed),
                   ("status", .str t.Job.Status)]⟩
  updateOrLog .Projects t.Project.ID d "Failed to update project" db

/-- Go `updateJobTemplate`. -/
def updateJobTemplate (t : SyncJob) (db : DB) : DB :=
  let d : Doc := ⟨[("last_job_run", .time t.Job.Started),
                   ("last_job_failed", .bool t.Job.Failed),
                   ("status", .str t.Job.Status)]⟩
  updateOrLog .JobTemplates t.Template.ID d "Failed to update JobTemplate" db

/-- Go `start`. -/
def start (now : Time) (t : SyncJob) (db : DB) : SyncJob × DB :=
  let t : SyncJob := { t with Job := { t.Job with Status := "running" } }
  let t : SyncJob := { t with Job := { t.Job with Started := now } }
  let d : Doc := ⟨[("status", .str t.Job.Status),
                   ("failed", .bool false),
                   ("started", .time t.Job.Started)]⟩
  (t, updateOrLog .Jobs t.Job.ID d "Failed to update job status" db)

/-- Go `status`. -/
def status (t : SyncJob) (s : String) (db : DB) : SyncJob × DB :=
  let t : SyncJob := { t with Job := { t.Job with Status := s } }
  let d : Doc := ⟨[("status", .str t.Job.Status)]⟩
  (t, updateOrLog .Jobs t.Job.ID d "Failed to update job status" db)

/-- Go `jobFail`. -/
def jobFail (now : Time) (t : SyncJob) (db : DB) : SyncJob × DB :=
  let t : SyncJob := { t with Job := { t.Job with Status := "failed" } }
  let t : SyncJob := { t with Job := { t.Job with Finished := now } }
  let t : SyncJob := { t with Job := { t.Job with Failed := true } }
  let diff := t.Job.Finished.Sub t.Job.Started
  let d : Doc := ⟨[("status", .str t.Job.Status),
                   ("failed", .bool t.Job.Failed),
                   ("finished", .time t.Job.Finished),
                   ("elapsed", .float diff.Minutes),
                   ("result_stdout", .str t.Job.ResultStdout),
                   ("job_explanation", .str t.Job.JobExplanation),
                   ("job_args", .strs t.Job.JobARGS),
                   ("job_env", .strs t.Job.JobENV),
                   ("job_cwd", .str t.Job.JobCWD)]⟩
  let db1 := updateOrLog .Jobs t.Job.ID d "Failed to update job status" db
  (t, updateProject t db1)

/-- Go `jobCancel`. -/
def jobCancel (now : Time) (t : SyncJob) (db : DB) : SyncJob × DB :=
  let t : SyncJob := { t with Job := { t.Job with Status := "canceled" } }
  let t : SyncJob := { t with Job := { t.Job with Finished := now } }
  let t : SyncJob := { t with Job := { t.Job with Failed := false } }
  let diff := t.Job.Finished.Sub t.Job.Started
  let d : Doc := ⟨[("status", .str t.Job.Status),
                   ("cancel_flag", .bool true),
                   ("failed", .bool t.Job.Failed),
                   ("finished", .time t.Job.Finished),
                   ("elapsed", .float diff.Minutes),
                   ("result_stdout", .str "stdout capture is missing"),
                   ("job_explanation", .str "Job Cancelled"),
                   ("job_args", .strs t.Job.JobARGS),
                   ("job_env", .strs t.Job.JobENV),
                   ("job_cwd", .str t.Job.JobCWD)]⟩
  let db1 := updateOrLog .Jobs t.Job.ID d "Failed to update job status" db
  (t, updateProject t db1)

/-- Go `jobError`. -/
def jobError (now : Time) (t : SyncJob) (db : DB) : SyncJob × DB :=
  let t : SyncJob := { t with Job := { t.Job with Status := "error" } }
  let t : SyncJob := { t with Job := { t.Job with Finished := now } }
  let t : SyncJob := { t with Job := { t.Job with Failed := true } }
  let diff := t.Job.Finished.Sub t.Job.Started
  let d : Doc := ⟨[("status", .str t.Job.Status),
                   ("failed", .bool t.Job.Failed),
                   ("finished", .time t.Job.Finished),
                   ("elapsed", .float diff.Minutes),
                   ("result_stdout", .str t.Job.ResultStdout),
                   ("job_explanation", .str t.Job.JobExplanation),
                   ("job_args", .strs t.Job.JobARGS),
                   ("job_env", .strs t.Job.JobENV),
                   ("job_cwd", .str t.Job.JobCWD)]⟩
  let db1 := updateOrLog .Jobs t.Job.ID d "Failed to update job status" db
  (t, updateProject t db1)

/-- Go `jobSuccess`. -/
def jobSuccess (now : Time) (t : SyncJob) (db : DB) : SyncJob × DB :=
  let t : SyncJob := { t with Job := { t.Job with Status := "successful" } }
  let t : SyncJob := { t with Job := { t.Job with Finished := now } }
  let t : SyncJob := { t with Job := { t.Job with Failed := false } }
  let diff := t.Job.Finished.Sub t.Job.Started
  let d : Doc := ⟨[("status", .str t.Job.Status),
                   ("failed", .bool t.Job.Failed),
                   ("finished", .time t.Job.Finished),
                   ("elapsed", .float diff.Minutes),
                   ("result_stdout", .str t.Job.ResultStdout),
                   ("job_explanation", .str t.Job.JobExplanation),
                   ("job_args", .strs t.Job.JobARGS),
                   ("job_env", .strs t.Job.JobENV),
                   ("job_cwd", .str t.Job.JobCWD)]⟩
  let db1 := updateOrLog .Jobs t.Job.ID d "Failed to update job status" db
  (t, updateProject t db1)

/-- The four terminal operations. -/
inductive TerminalOp where
  | jobSuccess | jobFail | jobCancel | jobError
  deriving DecidableEq, Repr

/-- Run a terminal operation. -/
def TerminalOp.run : TerminalOp → Time → SyncJob → DB → SyncJob × DB
  | .jobSuccess => Tensor.jobSuccess
  | .jobFail => Tensor.jobFail
  | .jobCancel => Tensor.jobCancel
  | .jobError => Tensor.jobError

/-- The updates an operation issued: the trace entries added to `before`. -/
def issued (before after : DB) : List Write :=
  after.trace.drop before.trace.length

/-! ## Example scenario (spec §8): job J1 of project P1 and template JT1 -/

/-- The instant T0: 2017-01-01T00:00:00Z. -/
def T0 : Time := ⟨63618825600000000000⟩

/-- The instant T0 + 5 min. -/
def T5 : Time := ⟨63618825900000000000⟩

/-- Job J1, running since T0, with captured stdout "build error". -/
def exJob : Job :=
  { ID := "j1", Status := "running", Started := T0, Finished := ⟨0⟩, Failed := false,
    ResultStdout := "build error", JobExplanation := "", JobARGS := [], JobENV := [],
    JobCWD := "/tmp" }

/-- The tuple (J1, P1, JT1). -/
def exTuple : SyncJob := { Job := exJob, Project := ⟨"p1"⟩, Template := ⟨"jt1"⟩ }

/-- A store holding J1, P1 and JT1, with no fault pending. -/
def exDB : DB :=
  { cols := fun c =>
      match c with
      | .Jobs => [("j1", ⟨[("name", .str "sync"), ("status", .str "running"),
                           ("failed", .bool false), ("cancel_flag", .bool false),
                           ("result_stdout", .str "half a log"),
                           ("job_explanation", .str "in progress")]⟩)]
      | .Projects => [("p1", ⟨[("name", .str "repo"), ("status", .str "running")]⟩)]
      | .JobTemplates => [("jt1", ⟨[("name", .str "tpl"), ("status", .str "pending")]⟩)]
      | _ => [],
    faults := [], trace := [], log := [] }

/-- The instant T0 + 9 min. -/
def T9 : Time := ⟨63618826140000000000⟩

/-- Job J1 after it ended successfully at T0 + 5 min. -/
def doneJob : Job :=
  { ID := "j1", Status := "successful", Started := T0, Finished := T5, Failed := false,
    ResultStdout := "ok", JobExplanation := "", JobARGS := [], JobENV := [],
    JobCWD := "/tmp" }

/-- The tuple (J1, P1, JT1) with J1 successful. -/
def doneTuple : SyncJob := { Job := doneJob, Project := ⟨"p1"⟩, Template := ⟨"jt1"⟩ }

/-- A store in which J1 is recorded as successful, finished at T0 + 5 min. -/
def doneDB : DB :=
  { cols := fun c =>
      match c with
      | .Jobs => [("j1", ⟨[("name", .str "sync"), ("status", .str "successful"),
                           ("failed", .bool false), ("started", .time T0),
                           ("finished", .time T5)]⟩)]
      | .Projects => [("p1", ⟨[("name", .str "repo"), ("status", .str "successful")]⟩)]
      | .JobTemplates => [("jt1", ⟨[("name", .str "tpl"), ("status", .str "pending")]⟩)]
      | _ => [],
    faults := [], trace := [], log := [] }

/-- Job J1 as created: pending, its started timestamp still the zero Time. -/
def freshJob : Job :=
  { ID := "j1", Status := "pending", Started := ⟨0⟩, Finished := ⟨0⟩, Failed := false,
    ResultStdout := "", JobExplanation := "", JobARGS := [], JobENV := [],
    JobCWD := "" }

/-- The tuple (J1, P1, JT1) with J1 never started. -/
def freshTuple : SyncJob := { Job := freshJob, Project := ⟨"p1"⟩, Template := ⟨"jt1"⟩ }

/-- The example store, about to accept one call and then fail the next. -/
def faultyDB : DB := { exDB with faults := [false, true] }

/-- Job J1 after it failed at T0 + 5 min. -/
def failedJob : Job :=
  { ID := "j1", Status := "failed", Started := T0, Finished := T5, Failed := true,
    ResultStdout := "build error", JobExplanation := "", JobARGS := [], JobENV := [],
    JobCWD := "/tmp" }

/-- The tuple (J1, P1, JT1) with J1 failed. -/
def failedTuple : SyncJob := { Job := failedJob, Project := ⟨"p1"⟩, Template := ⟨"jt1"⟩ }

/-- Fields of the stored Job named in the update of start. -/
def startFields : List String := ["status", "failed", "started"]

/-- Fields of the stored Job named in the update of every terminal operation. -/
def terminalFields : List String :=
  ["status", "failed", "finished", "elapsed", "result_stdout", "job_explanation",
   "job_args", "job_env", "job_cwd"]

/-- Fields of the stored Project named in the update of updateProject. -/
def projectFields : List String := ["last_updated", "last_update_failed", "status"]

/-- A store in which J1 is recorded as failed, finished at T0 + 5 min. -/
def failedDB : DB :=
  { cols := fun c =>
      match c with
      | .Jobs => [("j1", ⟨[("name", .str "sync"), ("status", .str "failed"),
                           ("failed", .bool true), ("started", .time T0),
                           ("finished", .time T5)]⟩)]
      | .Projects => [("p1", ⟨[("name", .str "repo"), ("status", .str "failed")]⟩)]
      | .JobTemplates => [("jt1", ⟨[("name", .str "tpl"), ("status", .str "pending")]⟩)]
      | _ => [],
    faults := [], trace := [], log := [] }


/-! ## Sequences of lifecycle operations -/

/-- One call of a lifecycle operation of logging.go, with the clock reading it
takes (start, terminal operations) or the status it is given (status). -/
inductive LifecycleOp where
  | start (now : Time)
  | status (s : String)
  | terminal (op : TerminalOp) (now : Time)
  deriving DecidableEq

/-- Run one lifecycle operation. -/
def LifecycleOp.run : LifecycleOp → SyncJob → DB → SyncJob × DB
  | .start now, t, db => Tensor.start now t db
  | .status s, t, db => Tensor.status t s db
  | .terminal op now, t, db => op.run now t db

/-- Whether the call is one of the four terminal operations. -/
def LifecycleOp.isTerminal : LifecycleOp → Bool
  | .terminal _ _ => true
  | _ => false

/-- Run a finite sequence of lifecycle operations on a Job, one after the other,
each on the Job value and the store the previous one left. -/
def runOps (ops : List LifecycleOp) (t : SyncJob) (db : DB) : SyncJob × DB :=
  ops.foldl (fun s op => op.run s.1 s.2) (t, db)

/-- Run a finite sequence of lifecycle operations when the operations do not
share the Job with their caller: Go hands `t types.SyncJob` to each operation
by value, so if `Job` is a value field of the tuple the assignments to `t.Job`
stay in the operation's own copy. Each operation then receives the caller's
tuple `t` as it was, and only the store carries what the earlier ones did. -/
def runOpsByValue (ops : List LifecycleOp) (t : SyncJob) (db : DB) : DB :=
  ops.foldl (fun d op => (op.run t d).2) db

/-- The terminal statuses of the spec: successful, failed, canceled, error. -/
def isTerminalStatus (s : String) : Bool :=
  s == "successful" || s == "failed" || s == "canceled" || s == "error"

/-- Go's `t.IsZero()`: the timestamp is unset (the zero Time). -/
def Time.IsZero (t : Time) : Bool := t.ns == 0

/-- The store calls an operation made: the entries added to `before.calls`. -/
def called (before after : DB) : List Call :=
  after.calls.drop before.calls.length

/-- Whether a stored Job document has its finished timestamp set: the field is
there and is not the zero Time. -/
def docFinishedSet (d : Doc) : Bool :=
  match d.get "finished" with
  | some (.time f) => !f.IsZero
  | _ => false

/-- Whether a stored Job document has a terminal status. -/
def docStatusTerminal (d : Doc) : Bool :=
  match d.get "status" with
  | some (.str s) => isTerminalStatus s
  | _ => false

/-! ## The Activity Recorder (logging.go, addActivity) -/

/-- Result of `db.C().Insert(doc)` for a document whose `_id` is `id`: the call
fails on a store fault or when the `_id` is already present; else the document
is added after the stored ones. A failed call changes no document. -/
def Insert (c : Coll) (id : ObjectId) (d : Doc) (db : DB) : Option StoreErr × DB :=
  let fault := db.faults.headD false
  let db1 := { db with faults := db.faults.tail }
  if fault then
    (some .fault, { db1 with calls := db1.calls ++ [⟨c, .Insert, some .fault⟩] })
  else
    match findId (db1.cols c) id with
    | some _ =>
      (some .DuplicateKey, { db1 with calls := db1.calls ++ [⟨c, .Insert, some .DuplicateKey⟩] })
    | none =>
      (none, { (db1.setColl c (db1.cols c ++ [(id, d)])) with
                 calls := db1.calls ++ [⟨c, .Insert, none⟩] })

/-- The `common.Activity` record, with the fields addActivity fills (`Type_` is
the Go field `Type`). -/
structure Activity where
  ID : ObjectId
  ActorID : ObjectId
  Type_ : String
  ObjectID : ObjectId
  Description : String
  Created : Time
  deriving DecidableEq

/-- The stored form of an Activity (its `_id` is the key of the document). The
declaration of `common.Activity` is not among the sources: the field names are
taken as the snake-case forms of the Go field names. -/
def Activity.toDoc (a : Activity) : Doc :=
  ⟨[("actor_id", .oid a.ActorID), ("type", .str a.Type_), ("object_id", .oid a.ObjectID),
    ("description", .str a.Description), ("created", .time a.Created)]⟩

/-- Go `addActivity` of logging.go; `newId` is the result of `bson.NewObjectId()`
and `now` the reading of `time.Now()`. -/
def addActivity (newId : ObjectId) (now : Time) (crdID userID : ObjectId)
    (desc jobtype : String) (db : DB) : DB :=
  let a : Activity :=
    { ID := newId, ActorID := userID, Type_ := jobtype, ObjectID := crdID,
      Description := desc, Created := now }
  match Insert .ActivityStream a.ID a.toDoc db with
  | (some _, db1) => db1.Errorln "Failed to add new Activity"
  | (none, db1) => db1

/-- A store in which J1 is pending and was never finished, with one Activity
already recorded. -/
def pendingDB : DB :=
  { cols := fun c =>
      match c with
      | .Jobs => [("j1", ⟨[("name", .str "sync"), ("status", .str "pending"),
                           ("failed", .bool false)]⟩)]
      | .Projects => [("p1", ⟨[("name", .str "repo"), ("status", .str "pending")]⟩)]
      | .JobTemplates => [("jt1", ⟨[("name", .str "tpl"), ("status", .str "pending")]⟩)]
      | .ActivityStream =>
        [("a0", ⟨[("actor_id", .oid "u1"), ("type", .str "project"),
                  ("object_id", .oid "p1"), ("description", .str "Project repo created"),
                  ("created", .time T0)]⟩)]
      | _ => [],
    faults := [], trace := [], log := [] }

/-- The sequence of the example: J1 is started at T0 and fails at T0 + 5 min. -/
def exOps : List LifecycleOp :=
  [LifecycleOp.start T0, LifecycleOp.terminal TerminalOp.jobFail T5]

/-- The example store, about to fail the next call. -/
def jobFaultDB : DB := { exDB with faults := [true] }

/-! ## Further store calls used by the HTTP handlers -/

/-- Effect of `log.Println(...)` of the standard logger. -/
def DB.Println (db : DB) (msg : String) : DB :=
  { db with log := db.log ++ [msg] }

/-- Whether a document satisfies the selector `bson.M{field: v}`. -/
def matchesSel (field : String) (v : Value) (d : Doc) : Bool :=
  decide (d.get field = some v)

/-- The documents delivered by `db.C().Find(bson.M{field: v}).Iter()` when it is
drained with `for iter.Next(&x)`. On a store fault nothing is delivered: `Next`
returns false and the error stays in the iterator. -/
def FindIter (c : Coll) (field : String) (v : Value) (db : DB) :
    List (ObjectId × Doc) × DB :=
  let fault := db.faults.headD false
  let db1 := { db with faults := db.faults.tail }
  if fault then
    ([], { db1 with calls := db1.calls ++ [⟨c, .Find, some .fault⟩] })
  else
    ((db1.cols c).filter (fun p => matchesSel field v p.2),
      { db1 with calls := db1.calls ++ [⟨c, .Find, none⟩] })

/-- Result of `db.C().RemoveAll(bson.M{field: v})`: the error (if any), the
number of documents removed (`changes.Removed`) and the next state. -/
def RemoveAll (c : Coll) (field : String) (v : Value) (db : DB) :
    (Option StoreErr × Nat) × DB :=
  let fault := db.faults.headD false
  let db1 := { db with faults := db.faults.tail }
  if fault then
    ((some .fault, 0), { db1 with calls := db1.calls ++ [⟨c, .RemoveAll, some .fault⟩] })
  else
    ((none, ((db1.cols c).filter (fun p => matchesSel field v p.2)).length),
      { (db1.setColl c ((db1.cols c).filter (fun p => !matchesSel field v p.2))) with
          calls := db1.calls ++ [⟨c, .RemoveAll, none⟩] })

/-- The collection without the (first) document whose `_id` is `id`. -/
def eraseId : Collection → ObjectId → Collection
  | [], _ => []
  | (i, d) :: rest, id => if i = id then rest else (i, d) :: eraseId rest id

/-- Result of `db.C().RemoveId(id)`: `ErrNotFound` when no document has that
`_id`. -/
def RemoveId (c : Coll) (id : ObjectId) (db : DB) : Option StoreErr × DB :=
  let fault := db.faults.headD false
  let db1 := { db with faults := db.faults.tail }
  if fault then
    (some .fault, { db1 with calls := db1.calls ++ [⟨c, .RemoveId, some .fault⟩] })
  else
    match findId (db1.cols c) id with
    | none =>
      (some .ErrNotFound, { db1 with calls := db1.calls ++ [⟨c, .RemoveId, some .ErrNotFound⟩] })
    | some _ =>
      (none, { (db1.setColl c (eraseId (db1.cols c) id)) with
                 calls := db1.calls ++ [⟨c, .RemoveId, none⟩] })

/-- The collection with the document whose `_id` is `id` replaced by `d`. -/
def replaceId : Collection → ObjectId → Doc → Collection
  | [], _, _ => []
  | (i, old) :: rest, id, d =>
    if i = id then (i, d) :: rest else (i, old) :: replaceId rest id d

/-- Result of `db.C().UpdateId(id, d)` where `d` is a plain document (no update
operator): the stored document is replaced by `d`, its `_id` kept. -/
def UpdateIdDoc (c : Coll) (id : ObjectId) (d : Doc) (db : DB) : Option StoreErr × DB :=
  let fault := db.faults.headD false
  let db1 := { db with faults := db.faults.tail }
  if fault then
    (some .fault, { db1 with calls := db1.calls ++ [⟨c, .UpdateId, some .fault⟩] })
  else
    match findId (db1.cols c) id with
    | none =>
      (some .ErrNotFound, { db1 with calls := db1.calls ++ [⟨c, .UpdateId, some .ErrNotFound⟩] })
    | some _ =>
      (none, { (db1.setColl c (replaceId (db1.cols c) id d)) with
                 calls := db1.calls ++ [⟨c, .UpdateId, none⟩] })

/-- Result of `db.C().UpdateAll(nil, update)`: `update` is applied to every
document of the collection; `f` is the effect of the update on one document. -/
def UpdateAll (c : Coll) (f : Doc → Doc) (db : DB) : (Option StoreErr × Nat) × DB :=
  let fault := db.faults.headD false
  let db1 := { db with faults := db.faults.tail }
  if fault then
    ((some .fault, 0), { db1 with calls := db1.calls ++ [⟨c, .UpdateAll, some .fault⟩] })
  else
    ((none, (db1.cols c).length),
      { (db1.setColl c ((db1.cols c).map (fun p => (p.1, f p.2)))) with
          calls := db1.calls ++ [⟨c, .UpdateAll, none⟩] })

/-! ## gin.Context, models -/

/-- The `models.Organization` record, with the fields the handlers use. -/
structure Organization where
  ID : ObjectId
  Name : String
  Description : String
  Created : Time
  CreatedBy : ObjectId
  Modified : Time
  ModifiedBy : ObjectId
  deriving DecidableEq

/-- The stored form of an Organization (its `_id` is the key of the document);
field names as in the queries of the controllers, else snake case. -/
def Organization.toDoc (o : Organization) : Doc :=
  ⟨[("name", .str o.Name), ("description", .str o.Description),
    ("created", .time o.Created), ("created_by", .oid o.CreatedBy),
    ("modified", .time o.Modified), ("modified_by", .oid o.ModifiedBy)]⟩

/-- The `models.User` record, with the fields the handlers use. -/
structure User where
  ID : ObjectId
  Username : String
  FirstName : String
  LastName : String
  Email : String
  Created : Time
  deriving DecidableEq

/-- The stored form of a User (its `_id` is the key of the document). -/
def User.toDoc (u : User) : Doc :=
  ⟨[("username", .str u.Username), ("first_name", .str u.FirstName),
    ("last_name", .str u.LastName), ("email", .str u.Email), ("created", .time u.Created)]⟩

/-- The body of a JSON reply. -/
inductive Body where
  | error (code : Nat) (message : List String)
  | organization (o : Organization)
  | user (u : User)
  | H (fields : List (String × Value))
  deriving DecidableEq

/-- One reply a handler writes through gin.Context: `c.JSON(code, body)` or
`c.AbortWithStatus(code)`. -/
inductive Reply where
  | JSON (code : Nat) (body : Body)
  | AbortWithStatus (code : Nat)
  deriving DecidableEq

/-- The HTTP status code of a reply. -/
def Reply.code : Reply → Nat
  | .JSON code _ => code
  | .AbortWithStatus code => code

/-- Whether a reply carries a success (2xx) status. -/
def Reply.isSuccess (r : Reply) : Bool := decide (200 ≤ r.code ∧ r.code < 300)

/-- What a handler leaves behind: the replies written, in order, the store, and
the value it panicked with, if it did. -/
structure Ctx where
  replies : List Reply
  db : DB
  panicked : Option StoreErr := none

/-- Modelled from the spec: `addActivity(crdID, userID, desc)` of the packages
organizations and users is called by the handlers but not among the sources.
Spec 4.3: the Activity Recorder generates a fresh unique ID and timestamp,
appends one Activity document, and a write failure is logged and not fatal. It
is taken as the addActivity of logging.go with the package's object type. -/
def apiAddActivity (objectType : String) (newId : ObjectId) (now : Time)
    (crdID userID : ObjectId) (desc : String) (db : DB) : DB :=
  addActivity newId now crdID userID desc objectType db

/-! ## api/jobs/controller.go -/

/-- Go `CancelInfo`: replies 200 with `can_cancel: false` for every job. -/
def CancelInfo (_job : Doc) (db : DB) : Ctx :=
  { replies := [.JSON 200 (.H [("can_cancel", .bool false)])], db := db }

/-- Go `Cancel`: the body is the single statement
`c.AbortWithStatus(http.StatusMethodNotAllowed)`. -/
def Cancel (_job : Doc) (db : DB) : Ctx :=
  { replies := [.AbortWithStatus 405], db := db }

/-! ## api/organizations/controller.go

Every handler receives what it reads from gin.Context as arguments: the values
stored under the context keys by the middleware, the result of `c.BindJSON`
(the bound record, or the messages of `util.GetValidationErrors(err)`), the
identifiers returned by `bson.NewObjectId()`, the readings of `time.Now()`, and
`metadata.OrganizationMetadata` (not among the sources; `none` is its error). -/

/-- Go `AddOrganization`. -/
def AddOrganization (user : User) (bind : Except (List String) Organization)
    (newId : ObjectId) (created modified : Time) (actId : ObjectId) (actNow : Time)
    (OrganizationMetadata : Organization → Option Organization) (db : DB) : Ctx :=
  match bind with
  | .error msgs => { replies := [.JSON 400 (.error 400 msgs)], db := db }
  | .ok req =>
    let req : Organization := { req with ID := newId }
    let req : Organization := { req with Created := created }
    let req : Organization := { req with CreatedBy := user.ID }
    let req : Organization := { req with Modified := modified }
    let req : Organization := { req with ModifiedBy := user.ID }
    match Insert .Organizations req.ID req.toDoc db with
    | (some _, db1) =>
      { replies := [.JSON 500 (.error 500 ["Error while creating Organization"])],
        db := db1.Println "Error while creating Organization:" }
    | (none, db1) =>
      let db2 := apiAddActivity "organization" actId actNow req.ID user.ID
        ("Organization " ++ req.Name ++ " created") db1
      match OrganizationMetadata req with
      | none =>
        { replies := [.JSON 500 (.error 500 ["Error while creating Organization"])],
          db := db2.Println "Error while setting metatdata:" }
      | some req' => { replies := [.JSON 201 (.organization req')], db := db2 }

/-- The loop `for orgIter.Next(&project)` of RemoveOrganization over the
delivered projects: `some reply` when an iteration replied and returned. -/
def removeProjectsLoop : List (ObjectId × Doc) → DB → Option Reply × DB
  | [], db => (none, db)
  | (pid, _) :: rest, db =>
    match RemoveAll .Jobs "project_id" (.oid pid) db with
    | ((some _, _), db1) =>
      (some (.JSON 500 (.error 500 ["Error while removing Project Jobs"])),
        db1.Println "Error while removing Project Jobs:")
    | ((none, n), db1) =>
      let db1 := db1.Println ("Jobs remove info: " ++ toString n)
      match RemoveAll .JobTemplates "project_id" (.oid pid) db1 with
      | ((some _, _), db2) =>
        (some (.JSON 500 (.error 500 ["Error while removing Project Job Templates"])),
          db2.Println "Error while removing Project Job Templates:")
      | ((none, m), db2) =>
        let db2 := db2.Println ("Job Template remove info: " ++ toString m)
        match RemoveId .Projects pid db2 with
        | (some _, db3) =>
          (some (.JSON 500 (.error 500 ["Error while removing Project"])),
            db3.Println "Error while removing Project:")
        | (none, db3) => removeProjectsLoop rest db3

/-- Go `RemoveOrganization`. -/
def RemoveOrganization (organization : Organization) (user : User)
    (actId : ObjectId) (actNow : Time) (db : DB) : Ctx :=
  match FindIter .Projects "organization_id" (.oid organization.ID) db with
  | (projects, db0) =>
    match removeProjectsLoop projects db0 with
    | (some reply, db1) => { replies := [reply], db := db1 }
    | (none, db1) =>
      match RemoveAll .Inventories "organization_id" (.oid organization.ID) db1 with
      | ((some _, _), db2) =>
        { replies := [.JSON 500 (.error 500 ["Error while removing Inventories"])],
          db := db2.Println "Error while removing Inventories:" }
      | ((none, n), db2) =>
        let db2 := db2.Println ("Inventory remove info: " ++ toString n)
        match RemoveId .Organizations organization.ID db2 with
        | (some _, db3) =>
          { replies := [.JSON 500 (.error 500 ["Error while removing Organization"])],
            db := db3.Println "Error while removing Organization:" }
        | (none, db3) =>
          let db4 := apiAddActivity "organization" actId actNow organization.ID user.ID
            ("Organization " ++ organization.Name ++ " deleted") db3
          { replies := [.AbortWithStatus 204], db := db4 }

/-- Go `UpdateOrganization`. The block that replies 500 when UpdateId fails has
no `return`: the handler goes on with what it has replied so far. -/
def UpdateOrganization (organization : Organization) (user : User)
    (bind : Except (List String) Organization) (actId : ObjectId) (actNow : Time)
    (OrganizationMetadata : Organization → Option Organization) (db : DB) : Ctx :=
  match bind with
  | .error msgs => { replies := [.JSON 400 (.error 400 msgs)], db := db }
  | .ok req =>
    let (replies1, db1) : List Reply × DB :=
      match UpdateIdDoc .Organizations organization.ID req.toDoc db with
      | (some _, db1) =>
        ([.JSON 500 (.error 500 ["Error while updating Organization"])],
          db1.Println "Error while updating Organization:")
      | (none, db1) => ([], db1)
    let db2 := apiAddActivity "organization" actId actNow req.ID user.ID
      ("Organization " ++ req.Name ++ " updated") db1
    match OrganizationMetadata req with
    | none =>
      { replies := replies1 ++ [.JSON 500 (.error 500 ["Error while updating Organization"])],
        db := db2.Println "Error while setting metatdata:" }
    | some req' => { replies := replies1 ++ [.JSON 201 (.organization req')], db := db2 }

/-! ## api/users/controller.go -/

/-- Go `AddUser`. The record that gets the new ID and is inserted and returned
is `user`, the one read from gin.Context; the bound request `req` is not used
after binding. -/
def AddUser (user : User) (bind : Except (List String) User) (newId : ObjectId)
    (now : Time) (actId : ObjectId) (actNow : Time) (db : DB) : Ctx :=
  match bind with
  | .error msgs => { replies := [.JSON 400 (.error 400 msgs)], db := db }
  | .ok _req =>
    let user : User := { user with ID := newId }
    let user : User := { user with Created := now }
    match Insert .Users user.ID user.toDoc db with
    | (some _, db1) =>
      { replies := [.JSON 500 (.error 500 ["Error while creating User"])],
        db := db1.Println "Error while creating User:" }
    | (none, db1) =>
      let db2 := apiAddActivity "user" actId actNow user.ID user.ID
        ("User " ++ user.FirstName ++ " " ++ user.LastName ++ " created") db1
      { replies := [.JSON 201 (.user user)], db := db2 }

/-- Go `UpdateUser`; `panic(err)` ends the handler without a reply. -/
def UpdateUser (oldUser : User) (bind : Except (List String) User) (db : DB) : Ctx :=
  match bind with
  | .error msgs => { replies := [.JSON 400 (.error 400 msgs)], db := db }
  | .ok user =>
    match UpdateIdDoc .Users oldUser.ID
        ⟨[("first_name", .str user.FirstName), ("last_name", .str user.LastName),
          ("username", .str user.Username), ("email", .str user.Email)]⟩ db with
    | (some err, db1) => { replies := [], db := db1, panicked := some err }
    | (none, db1) => { replies := [.AbortWithStatus 204], db := db1 }

/-- Go `DeleteUser`; `pullUser id` is the effect on one Project document of the
update `$pull: users: user_id: id` (documents here hold no nested arrays). -/
def DeleteUser (user : User) (pullUser : ObjectId → Doc → Doc) (db : DB) : Ctx :=
  match UpdateAll .Projects (pullUser user.ID) db with
  | ((some err, _), db1) => { replies := [], db := db1, panicked := some err }
  | ((none, _), db1) =>
    match RemoveId .Users user.ID db1 with
    | (some err, db2) => { replies := [], db := db2, panicked := some err }
    | (none, db2) => { replies := [.AbortWithStatus 204], db := db2 }

/-! ## Example store of the handlers: organizations Acme (o1) and Other (o2) -/

/-- Organization Acme, as the middleware puts it in gin.Context. -/
def acme : Organization :=
  { ID := "o1", Name := "Acme", Description := "", Created := T0, CreatedBy := "u1",
    Modified := T0, ModifiedBy := "u1" }

/-- The request body of an update of Acme: a new name, no ID. -/
def acmeReq : Organization :=
  { ID := "", Name := "Acme Ltd", Description := "", Created := ⟨0⟩, CreatedBy := "",
    Modified := ⟨0⟩, ModifiedBy := "" }

/-- User u1 (Ada), the caller. -/
def ada : User :=
  { ID := "u1", Username := "ada", FirstName := "Ada", LastName := "Lovelace",
    Email := "ada@example.org", Created := T0 }

/-- User u2 (Bob), as stored. -/
def bob : User :=
  { ID := "u2", Username := "bob", FirstName := "Bob", LastName := "Stone",
    Email := "bob@example.org", Created := T0 }

/-- The request body of an update of Bob: a new first name. -/
def bobReq : User :=
  { ID := "", Username := "bob", FirstName := "Robert", LastName := "Stone",
    Email := "bob@example.org", Created := ⟨0⟩ }

/-- A store with two organizations; Acme owns projects p1 and p3 (with jobs j1,
j3 and template jt1) and inventory i1, Other owns p2 (job j2, template jt2) and
inventory i2. -/
def orgDB : DB :=
  { cols := fun c =>
      match c with
      | .Organizations => [("o1", acme.toDoc),
                           ("o2", ⟨[("name", .str "Other")]⟩)]
      | .Projects => [("p1", ⟨[("name", .str "repo"), ("organization_id", .oid "o1")]⟩),
                      ("p2", ⟨[("name", .str "site"), ("organization_id", .oid "o2")]⟩),
                      ("p3", ⟨[("name", .str "docs"), ("organization_id", .oid "o1")]⟩)]
      | .Jobs => [("j1", ⟨[("status", .str "pending"), ("project_id", .oid "p1")]⟩),
                  ("j2", ⟨[("status", .str "pending"), ("project_id", .oid "p2")]⟩),
                  ("j3", ⟨[("status", .str "running"), ("project_id", .oid "p3")]⟩)]
      | .JobTemplates => [("jt1", ⟨[("name", .str "tpl"), ("project_id", .oid "p1")]⟩),
                          ("jt2", ⟨[("name", .str "tpl2"), ("project_id", .oid "p2")]⟩)]
      | .Inventories => [("i1", ⟨[("name", .str "hosts"), ("organization_id", .oid "o1")]⟩),
                         ("i2", ⟨[("name", .str "lab"), ("organization_id", .oid "o2")]⟩)]
      | .Users => [("u1", ada.toDoc), ("u2", bob.toDoc)]
      | _ => [],
    faults := [], trace := [], log := [] }

/-- The handlers' example store, about to fail the next call. -/
def orgFaultDB : DB := { orgDB with faults := [true] }

/-- The stored pending job j1 of the handlers' example store. -/
def pendingJobDoc : Doc := ⟨[("status", .str "pending"), ("project_id", .oid "p1")]⟩

/-! ## api/jobs/controller.go, GetJobs

`roles.JobRead`, `metadata.JobMetadata` and `util.NewPagination` are not among
the sources: they are arguments, as are the type of the user and of a
`models.Job`. The Find with the request's match and sort is represented by the
jobs the iterator delivers, in order, and by whether `iter.Close()` reports an
error. -/

/-- The values the methods of the `util.Pagination` built by
`util.NewPagination(c, count)` return. -/
structure Pagination where
  HasPage : Bool
  Page : Int
  NextPage : Option String
  PreviousPage : Option String
  Skip : Int
  End : Int

/-- What GetJobs replies: an error payload, the `detail` object of an invalid
page, or the `models.Response`; `panic` when the slice expression is out of
range. -/
inductive JobsReply (J : Type) where
  | error (code : Nat) (message : List String)
  | detail (code : Nat) (text : String)
  | response (code : Nat) (Count : Nat) (Next Previous : Option String) (Results : List J)
  | panic
  deriving DecidableEq

/-- The loop `for iter.Next(&tmpJob)` of GetJobs: a job the user may not read is
skipped (`continue`), any other gets its metadata and is appended to `jobs`. -/
def collectJobs {U J : Type} (JobRead : U → J → Bool) (JobMetadata : J → J) (user : U) :
    List J → List J → List J
  | [], jobs => jobs
  | tmpJob :: rest, jobs =>
    if !JobRead user tmpJob then collectJobs JobRead JobMetadata user rest jobs
    else collectJobs JobRead JobMetadata user rest (jobs ++ [JobMetadata tmpJob])

/-- Go's slice expression `s[lo:hi]` on a slice of length `s.length` and
capacity `cap` (at least the length) whose spare capacity holds `zero`: a
run-time panic unless `0 <= lo <= hi <= cap`. -/
def sliceExpr {J : Type} (zero : J) (cap : Nat) (s : List J) (lo hi : Int) :
    Option (List J) :=
  if 0 ≤ lo ∧ lo ≤ hi ∧ hi ≤ ((max cap s.length : Nat) : Int) then
    some (((s ++ List.replicate (cap - s.length) zero).drop lo.toNat).take (hi - lo).toNat)
  else none

/-- Go `GetJobs`; `cap` is the capacity `append` has given to `jobs`. -/
def GetJobs {U J : Type} (JobRead : U → J → Bool) (JobMetadata : J → J)
    (NewPagination : Nat → Pagination) (zero : J) (cap : Nat)
    (user : U) (delivered : List J) (closeErr : Bool) : JobsReply J :=
  let jobs := collectJobs JobRead JobMetadata user delivered []
  if closeErr then .error 500 ["Error while getting Credential"]
  else
    let count := jobs.length
    let pgi := NewPagination count
    if pgi.HasPage then
      .detail 404 ("Invalid page " ++ toString pgi.Page ++ ": That page contains no results.")
    else
      match sliceExpr zero cap jobs pgi.Skip pgi.End with
      | none => .panic
      | some results => .response 200 count pgi.NextPage pgi.PreviousPage results

/-- The jobs the example query delivers: j1 and j3 of Ada (u1), j2 of Bob (u2). -/
def exJobs : List Doc :=
  [⟨[("name", .str "j1"), ("owner", .oid "u1")]⟩,
   ⟨[("name", .str "j2"), ("owner", .oid "u2")]⟩,
   ⟨[("name", .str "j3"), ("owner", .oid "u1")]⟩]

/-- An example of `roles.JobRead`: a user reads the jobs it owns. -/
def exJobRead (u : User) (j : Doc) : Bool := decide (j.get "owner" = some (.oid u.ID))

/-- An example of `metadata.JobMetadata`: it adds the type tag. -/
def exJobMetadata (j : Doc) : Doc := j.set "type" (.str "job")

/-- An example of `util.NewPagination`: one page holding everything. -/
def exPagination (count : Nat) : Pagination :=
  { HasPage := false, Page := 1, NextPage := none, PreviousPage := none, Skip := 0,
    End := count }
/-! ## Store lemmas -/

theorem fieldGet_fieldSet (l : List (String × Value)) (k k' : String) (v : Value) :
    fieldGet (fieldSet l k v) k' = if k = k' then some v else fieldGet l k' := by
  induction l with
  | nil => simp [fieldSet, fieldGet]
  | cons hd tl ih =>
    obtain ⟨a, b⟩ := hd
    by_cases h : a = k
    · subst h
      by_cases h2 : a = k' <;> simp [fieldSet, fieldGet, h2]
    · by_cases h2 : a = k'
      · subst h2
        have h3 : ¬ k = a := fun e => h e.symm
        simp [fieldSet, fieldGet, h, h3]
      · simp [fieldSet, fieldGet, h, h2, ih]

theorem Doc.get_set (d : Doc) (k k' : String) (v : Value) :
    (d.set k v).get k' = if k = k' then some v else d.get k' := by
  simp [Doc.get, Doc.set, fieldGet_fieldSet]

theorem foldl_set_get_of_not_mem (m : List (String × Value)) (d : Doc) (k : String)
    (h : k ∉ m.map Prod.fst) :
    (m.foldl (fun acc kv => acc.set kv.1 kv.2) d).get k = d.get k := by
  induction m generalizing d with
  | nil => rfl
  | cons hd tl ih =>
    simp only [List.map_cons, List.mem_cons, not_or] at h
    have h1 : ¬ hd.1 = k := fun e => h.1 e.symm
    simp only [List.foldl_cons]
    rw [ih _ h.2, Doc.get_set, if_neg h1]

/-- A field that the `$set` map does not name keeps its value. -/
theorem Doc.get_applySet_of_not_mem (d m : Doc) (k : String)
    (h : k ∉ m.fields.map Prod.fst) : (d.applySet m).get k = d.get k :=
  foldl_set_get_of_not_mem m.fields d k h

theorem findId_setId (c : Collection) (id id' : ObjectId) (m : Doc) :
    findId (setId c id m) id' =
      if id' = id then (findId c id).map (fun d => d.applySet m) else findId c id' := by
  induction c with
  | nil => simp [setId, findId]
  | cons hd tl ih =>
    obtain ⟨i, d⟩ := hd
    by_cases h : i = id
    · subst h
      by_cases h2 : id' = i
      · subst h2; simp [setId, findId]
      · have h3 : ¬ i = id' := fun e => h2 e.symm
        simp [setId, findId, h2, h3]
    · by_cases h2 : id' = id
      · subst h2
        simp [setId, findId, h, ih]
      · by_cases h3 : i = id' <;> simp [setId, findId, h, h2, h3, ih]

/-- An update succeeds exactly when the store does not fail and the document
exists. -/
theorem UpdateId_ok_iff (c : Coll) (id : ObjectId) (m : Doc) (db : DB) :
    (UpdateId c id m db).1 = none ↔
      db.faults.headD false = false ∧ (findId (db.cols c) id).isSome = true := by
  unfold UpdateId
  cases hf : db.faults.headD false <;> cases hd : findId (db.cols c) id <;> simp [hf, hd]

theorem updateOrLog_trace (c : Coll) (id : ObjectId) (m : Doc) (msg : String) (db : DB) :
    (updateOrLog c id m msg db).trace = db.trace ++ [⟨c, id, m, (UpdateId c id m db).1⟩] := by
  unfold updateOrLog UpdateId
  cases hf : db.faults.headD false <;> cases hd : findId (db.cols c) id <;>
    simp [hf, hd, DB.Errorln, DB.setColl]

theorem updateOrLog_faults (c : Coll) (id : ObjectId) (m : Doc) (msg : String) (db : DB) :
    (updateOrLog c id m msg db).faults = db.faults.tail := by
  unfold updateOrLog UpdateId
  cases hf : db.faults.headD false <;> cases hd : findId (db.cols c) id <;>
    simp [hf, hd, DB.Errorln, DB.setColl]

theorem updateOrLog_log (c : Coll) (id : ObjectId) (m : Doc) (msg : String) (db : DB) :
    (updateOrLog c id m msg db).log =
      if (UpdateId c id m db).1 = none then db.log else db.log ++ [msg] := by
  unfold updateOrLog UpdateId
  cases hf : db.faults.headD false <;> cases hd : findId (db.cols c) id <;>
    simp [hf, hd, DB.Errorln, DB.setColl]

theorem updateOrLog_cols (c : Coll) (id : ObjectId) (m : Doc) (msg : String) (db : DB) :
    (updateOrLog c id m msg db).cols =
      if (UpdateId c id m db).1 = none then
        fun c' => if c' = c then setId (db.cols c) id m else db.cols c'
      else db.cols := by
  unfold updateOrLog UpdateId
  cases hf : db.faults.headD false <;> cases hd : findId (db.cols c) id <;>
    simp [hf, hd, DB.Errorln, DB.setColl]

/-- What a lookup finds after one logged update. -/
theorem updateOrLog_findId (c c' : Coll) (id id' : ObjectId) (m : Doc) (msg : String)
    (db : DB) :
    findId ((updateOrLog c id m msg db).cols c') id' =
      if c' = c ∧ id' = id ∧ (UpdateId c id m db).1 = none then
        (findId (db.cols c) id).map (fun d => d.applySet m)
      else findId (db.cols c') id' := by
  rw [updateOrLog_cols]
  by_cases hok : (UpdateId c id m db).1 = none
  · by_cases hc : c' = c
    · subst hc
      by_cases hi : id' = id <;> simp [hok, hi, findId_setId]
    · simp [hok, hc]
  · simp [hok]

theorem drop_length_append {α : Type} (l r : List α) : (l ++ r).drop l.length = r := by
  simp

theorem issued_updateOrLog (c : Coll) (id : ObjectId) (m : Doc) (msg : String) (db : DB) :
    issued db (updateOrLog c id m msg db) = [⟨c, id, m, (UpdateId c id m db).1⟩] := by
  simp [issued, updateOrLog_trace]

/-! ## Durations -/

/-- The whole minutes and the remaining nanoseconds add up to the duration. -/
theorem Duration.Minutes_eq (d : Duration) : d.Minutes = (d.ns : ℚ) / 60000000000 := by
  have h := Int.tdiv_add_tmod' d.ns 60000000000
  have h2 : ((Int.tdiv d.ns 60000000000 : ℤ) : ℚ) * 60000000000
      + ((Int.tmod d.ns 60000000000 : ℤ) : ℚ) = (d.ns : ℚ) := by
    have h3 := congrArg (fun z : ℤ => (z : ℚ)) h
    push_cast at h3
    linarith
  have h4 : Minute = 60000000000 := by decide
  unfold Duration.Minutes
  rw [h4, ← h2]
  ring

/-- Within the range of a Duration, Sub is the difference of the instants. -/
theorem Time.Sub_of_fits (t u : Time) (h1 : minDuration ≤ t.ns - u.ns)
    (h2 : t.ns - u.ns ≤ maxDuration) : (t.Sub u).ns = t.ns - u.ns := by
  unfold Time.Sub
  rw [if_neg (not_lt.2 h2), if_neg (not_lt.2 h1)]

/-- Sub of a later instant and an earlier one is not negative, saturated or not. -/
theorem Time.Sub_nonneg (t u : Time) (h : u.ns ≤ t.ns) : 0 ≤ (t.Sub u).ns := by
  unfold Time.Sub
  split
  · simp [maxDuration]
  · split
    · rename_i h1 h2
      simp only [minDuration] at h2
      omega
    · simp only
      omega

/-! ## Frame lemmas -/

/-- One logged update changes no field outside its `$set` map, no other document
and no other collection. -/
theorem updateOrLog_frame (c c' : Coll) (id id' : ObjectId) (m : Doc) (msg : String)
    (db : DB) (k : String) (h : ¬ (c' = c ∧ id' = id ∧ k ∈ m.fields.map Prod.fst)) :
    (findId ((updateOrLog c id m msg db).cols c') id').map (fun d => d.get k)
      = (findId (db.cols c') id').map (fun d => d.get k) := by
  rw [updateOrLog_findId]
  split
  · rename_i hc
    obtain ⟨hc1, hc2, _⟩ := hc
    subst hc1 hc2
    have hk : k ∉ m.fields.map Prod.fst := fun hk => h ⟨rfl, rfl, hk⟩
    cases hf : findId (db.cols c') id' with
    | none => rfl
    | some d => simp [Doc.get_applySet_of_not_mem d m k hk]
  · rfl

/-- One logged update neither creates nor deletes a document. -/
theorem updateOrLog_isSome (c c' : Coll) (id id' : ObjectId) (m : Doc) (msg : String)
    (db : DB) :
    (findId ((updateOrLog c id m msg db).cols c') id').isSome
      = (findId (db.cols c') id').isSome := by
  rw [updateOrLog_findId]
  split
  · rename_i hc
    obtain ⟨hc1, hc2, _⟩ := hc
    subst hc1 hc2
    cases findId (db.cols c') id' <;> rfl
  · rfl

/-- One logged update leaves every other collection as it was. -/
theorem updateOrLog_cols_other (c c' : Coll) (id : ObjectId) (m : Doc) (msg : String)
    (db : DB) (h : c' ≠ c) : (updateOrLog c id m msg db).cols c' = db.cols c' := by
  rw [updateOrLog_cols]
  split <;> simp [h]

/-! ## Claims -/

/-- C1. After every terminal operation the Job value has failed = true iff its
status is "failed" or "error", and failed = false iff its status is "successful"
or "canceled"; and the first update the operation issues is the Job update, keyed
by the Job's ID, whose $set carries exactly that status and that failed flag. -/
theorem C1_failed_flag_mapping (op : TerminalOp) (now : Time) (t : SyncJob) (db : DB) :
    ((op.run now t db).1.Job.Failed = true ↔
        ((op.run now t db).1.Job.Status = "failed" ∨ (op.run now t db).1.Job.Status = "error")) ∧
    ((op.run now t db).1.Job.Failed = false ↔
        ((op.run now t db).1.Job.Status = "successful" ∨
          (op.run now t db).1.Job.Status = "canceled")) ∧
    ∃ w rest, issued db (op.run now t db).2 = w :: rest ∧
      w.coll = Coll.Jobs ∧ w.id = t.Job.ID ∧
      w.set.get "status" = some (Value.str (op.run now t db).1.Job.Status) ∧
      w.set.get "failed" = some (Value.bool (op.run now t db).1.Job.Failed) ∧
      (w.set.get "failed" = some (Value.bool true) ↔
        (w.set.get "status" = some (Value.str "failed") ∨
          w.set.get "status" = some (Value.str "error"))) ∧
      (w.set.get "failed" = some (Value.bool false) ↔
        (w.set.get "status" = some (Value.str "successful") ∨
          w.set.get "status" = some (Value.str "canceled"))) := by
  cases op <;>
    simp [TerminalOp.run, jobSuccess, jobFail, jobCancel, jobError, updateProject,
      updateOrLog_trace, issued, Doc.get, fieldGet]

/-- C2. After a terminal operation all of whose issued writes succeeded, the
Project document keyed by t.Project.ID has last_updated = the Job's finished
timestamp, last_update_failed = the Job's failed flag and status = the Job's
status (as on the Job value and as in the stored Job document), whatever the
prior Project document held. -/
theorem C2_project_cascade (op : TerminalOp) (now : Time) (t : SyncJob) (db : DB)
    (hok : ∀ w ∈ issued db (op.run now t db).2, w.err = none) :
    ∃ p, findId ((op.run now t db).2.cols Coll.Projects) t.Project.ID = some p ∧
      p.get "last_updated" = some (Value.time (op.run now t db).1.Job.Finished) ∧
      p.get "last_update_failed" = some (Value.bool (op.run now t db).1.Job.Failed) ∧
      p.get "status" = some (Value.str (op.run now t db).1.Job.Status) ∧
      ∃ j, findId ((op.run now t db).2.cols Coll.Jobs) t.Job.ID = some j ∧
        j.get "finished" = p.get "last_updated" ∧
        j.get "failed" = p.get "last_update_failed" ∧
        j.get "status" = p.get "status" := by
  cases op <;>
  · simp only [TerminalOp.run, jobSuccess, jobFail, jobCancel, jobError, updateProject,
      issued, updateOrLog_trace, List.append_assoc, drop_length_append] at hok ⊢
    simp only [List.cons_append, List.nil_append, List.mem_cons, List.mem_singleton,
      forall_eq_or_imp, forall_eq, List.not_mem_nil, false_imp_iff, implies_true,
      and_true] at hok
    obtain ⟨h1, h2⟩ := hok
    have f1 := (UpdateId_ok_iff _ _ _ _).1 h1
    have f2 := (UpdateId_ok_iff _ _ _ _).1 h2
    rw [updateOrLog_cols] at f2
    simp only [h1, if_true] at f2
    obtain ⟨j, hj⟩ := Option.isSome_iff_exists.1 f1.2
    obtain ⟨p, hp⟩ := Option.isSome_iff_exists.1 f2.2
    simp at hp
    simp [updateOrLog_findId, h1, h2, hj, hp, Doc.applySet, Doc.get_set, updateOrLog_cols,
      findId_setId]

/-- C2 at the example scenario: jobFail at T0 + 5 min on (J1, P1, JT1), all writes succeeding. -/
theorem C2_project_cascade_witness :
    (∀ w ∈ issued exDB (TerminalOp.jobFail.run T5 exTuple exDB).2, w.err = none) ∧
    ∃ p, findId ((TerminalOp.jobFail.run T5 exTuple exDB).2.cols Coll.Projects)
        exTuple.Project.ID = some p ∧
      p.get "last_updated" = some (Value.time (TerminalOp.jobFail.run T5 exTuple exDB).1.Job.Finished) ∧
      p.get "last_update_failed" =
        some (Value.bool (TerminalOp.jobFail.run T5 exTuple exDB).1.Job.Failed) ∧
      p.get "status" = some (Value.str (TerminalOp.jobFail.run T5 exTuple exDB).1.Job.Status) ∧
      ∃ j, findId ((TerminalOp.jobFail.run T5 exTuple exDB).2.cols Coll.Jobs) exTuple.Job.ID
          = some j ∧
        j.get "finished" = p.get "last_updated" ∧
        j.get "failed" = p.get "last_update_failed" ∧
        j.get "status" = p.get "status" :=
  have h : ∀ w ∈ issued exDB (TerminalOp.jobFail.run T5 exTuple exDB).2, w.err = none := by
    decide
  ⟨h, C2_project_cascade TerminalOp.jobFail T5 exTuple exDB h⟩

/-- C3 (failing input). The example scenario of the spec: Job J1, started at T0,
of Project P1 and JobTemplate JT1, fails at T0 + 5 min, every issued write
succeeding. The spec expects JT1 with status "failed", last_job_failed = true
and last_job_run = T0. jobFail makes two store calls, the Job update and the
Project update, and none on the JobTemplates collection: the stored J1 and P1
have status "failed", while JT1 is the document stored before, with status
"pending" and neither last_job_failed nor last_job_run; the JobTemplates
collection is unchanged. -/
theorem C3_jobTemplate_not_updated :
    (∀ w ∈ issued exDB (TerminalOp.jobFail.run T5 exTuple exDB).2, w.err = none) ∧
    (issued exDB (TerminalOp.jobFail.run T5 exTuple exDB).2).map (fun w => (w.coll, w.id))
      = [(Coll.Jobs, "j1"), (Coll.Projects, "p1")] ∧
    (called exDB (TerminalOp.jobFail.run T5 exTuple exDB).2).map (fun c => (c.coll, c.method))
      = [(Coll.Jobs, Method.UpdateId), (Coll.Projects, Method.UpdateId)] ∧
    (TerminalOp.jobFail.run T5 exTuple exDB).1.Job.Status = "failed" ∧
    (TerminalOp.jobFail.run T5 exTuple exDB).1.Job.Failed = true ∧
    (TerminalOp.jobFail.run T5 exTuple exDB).1.Job.Started = T0 ∧
    (findId ((TerminalOp.jobFail.run T5 exTuple exDB).2.cols Coll.Jobs) exTuple.Job.ID).map
        (fun d => (d.get "status", d.get "failed"))
      = some (some (Value.str "failed"), some (Value.bool true)) ∧
    (findId ((TerminalOp.jobFail.run T5 exTuple exDB).2.cols Coll.Projects)
        exTuple.Project.ID).map (fun d => (d.get "status", d.get "last_update_failed"))
      = some (some (Value.str "failed"), some (Value.bool true)) ∧
    (TerminalOp.jobFail.run T5 exTuple exDB).2.cols Coll.JobTemplates
      = exDB.cols Coll.JobTemplates ∧
    ∃ jt, findId ((TerminalOp.jobFail.run T5 exTuple exDB).2.cols Coll.JobTemplates)
        exTuple.Template.ID = some jt ∧
      jt.get "status" = some (Value.str "pending") ∧
      jt.get "status" ≠ some (Value.str (TerminalOp.jobFail.run T5 exTuple exDB).1.Job.Status) ∧
      jt.get "last_job_failed" = none ∧ jt.get "last_job_run" = none := by
  decide

/-- C4 (counterexample). Job J1 is successful, finished at T0 + 5 min, not
failed, on the Job value and in the store. jobFail at T0 + 9 min turns status
into "failed", finished into T0 + 9 min and failed into true, on the Job value
and in the stored document; start turns status into "running". -/
theorem C4_counterexample :
    doneTuple.Job.Status = "successful" ∧ doneTuple.Job.Finished = T5 ∧
    doneTuple.Job.Failed = false ∧
    (findId (doneDB.cols Coll.Jobs) "j1").map (fun d => d.get "status")
      = some (some (Value.str "successful")) ∧
    (jobFail T9 doneTuple doneDB).1.Job.Status = "failed" ∧
    (jobFail T9 doneTuple doneDB).1.Job.Finished = T9 ∧ T9 ≠ T5 ∧
    (jobFail T9 doneTuple doneDB).1.Job.Failed = true ∧
    (findId ((jobFail T9 doneTuple doneDB).2.cols Coll.Jobs) "j1").map
      (fun d => (d.get "status", d.get "finished", d.get "failed"))
      = some (some (Value.str "failed"), some (Value.time T9), some (Value.bool true)) ∧
    (start T9 doneTuple doneDB).1.Job.Status = "running" ∧
    (findId ((start T9 doneTuple doneDB).2.cols Coll.Jobs) "j1").map (fun d => d.get "status")
      = some (some (Value.str "running")) := by
  decide

/-- C4 (amended). Terminal states are not guarded; what a further operation
keeps is only what it does not write, or writes with the same value. For a Job
brought to a terminal status by a terminal operation whose Job write succeeded:
start leaves finished unchanged, on the Job value and in every stored Job
document; and applying the same terminal operation again leaves status and
failed unchanged, on the Job value and in every stored Job document. -/
theorem C4_terminal_reapplied (op : TerminalOp) (now now' : Time) (t : SyncJob) (db : DB)
    (hok : ∀ w ∈ issued db (op.run now t db).2, w.coll = Coll.Jobs → w.err = none) :
    (start now' (op.run now t db).1 (op.run now t db).2).1.Job.Finished
      = (op.run now t db).1.Job.Finished ∧
    (∀ id, (findId ((start now' (op.run now t db).1 (op.run now t db).2).2.cols Coll.Jobs)
        id).map (fun d => d.get "finished")
      = (findId ((op.run now t db).2.cols Coll.Jobs) id).map (fun d => d.get "finished")) ∧
    (op.run now' (op.run now t db).1 (op.run now t db).2).1.Job.Status
      = (op.run now t db).1.Job.Status ∧
    (op.run now' (op.run now t db).1 (op.run now t db).2).1.Job.Failed
      = (op.run now t db).1.Job.Failed ∧
    (∀ id, (findId ((op.run now' (op.run now t db).1 (op.run now t db).2).2.cols Coll.Jobs)
        id).map (fun d => (d.get "status", d.get "failed"))
      = (findId ((op.run now t db).2.cols Coll.Jobs) id).map
          (fun d => (d.get "status", d.get "failed"))) := by
  cases op <;>
  · simp only [TerminalOp.run, jobSuccess, jobFail, jobCancel, jobError, updateProject,
      issued, updateOrLog_trace, List.append_assoc, drop_length_append] at hok ⊢
    simp only [List.cons_append, List.nil_append, List.mem_cons, List.mem_singleton,
      forall_eq_or_imp, forall_eq, List.not_mem_nil, false_imp_iff, implies_true,
      and_true, forall_const, reduceCtorEq] at hok
    have f1 := (UpdateId_ok_iff _ _ _ _).1 hok
    obtain ⟨j, hj⟩ := Option.isSome_iff_exists.1 f1.2
    refine ⟨rfl, ?_, trivial, trivial, ?_⟩
    · intro id
      by_cases hid : id = t.Job.ID <;>
        simp [start, updateOrLog_findId, hid, hok, hj, Doc.applySet, Doc.get_set]
      split <;> simp [Doc.applySet, Doc.get_set]
    · intro id
      by_cases hid : id = t.Job.ID <;>
        simp [updateOrLog_findId, hid, hok, hj, Doc.applySet, Doc.get_set]
      split <;> simp [Doc.applySet, Doc.get_set]

/-- C4 (amended) at the example scenario: J1 failed at T0 + 5 min; start at T0 + 9 min keeps finished, jobFail at T0 + 9 min keeps status and failed. -/
theorem C4_terminal_reapplied_witness :
    (∀ w ∈ issued exDB (TerminalOp.jobFail.run T5 exTuple exDB).2,
        w.coll = Coll.Jobs → w.err = none) ∧
    (TerminalOp.jobFail.run T5 exTuple exDB).1.Job.Status = "failed" ∧
    (start T9 (TerminalOp.jobFail.run T5 exTuple exDB).1
        (TerminalOp.jobFail.run T5 exTuple exDB).2).1.Job.Finished = T5 ∧
    (TerminalOp.jobFail.run T9 (TerminalOp.jobFail.run T5 exTuple exDB).1
        (TerminalOp.jobFail.run T5 exTuple exDB).2).1.Job.Status = "failed" ∧
    (TerminalOp.jobFail.run T9 (TerminalOp.jobFail.run T5 exTuple exDB).1
        (TerminalOp.jobFail.run T5 exTuple exDB).2).1.Job.Failed = true :=
  have h : ∀ w ∈ issued exDB (TerminalOp.jobFail.run T5 exTuple exDB).2,
      w.coll = Coll.Jobs → w.err = none := by
    decide
  have c := C4_terminal_reapplied TerminalOp.jobFail T5 T9 exTuple exDB h
  ⟨h, rfl, c.1, c.2.2.1, c.2.2.2.1⟩

/-- C5 (counterexample). Job J1 was never started (started is the zero Time) and
jobFail reads the clock at T0 = 2017-01-01: finished - started is
63618825600000000000 ns, which no Duration holds, so the elapsed value written is
the largest Duration in minutes, not (finished - started) in minutes. -/
theorem C5_counterexample :
    freshTuple.Job.Started = ⟨0⟩ ∧
    ∃ w rest, issued exDB (TerminalOp.jobFail.run T0 freshTuple exDB).2 = w :: rest ∧
      w.coll = Coll.Jobs ∧
      w.set.get "finished" = some (Value.time T0) ∧
      w.set.get "elapsed" = some (Value.float ((9223372036854775807 : ℚ) / 60000000000)) ∧
      w.set.get "elapsed" ≠
        some (Value.float (((T0.ns - freshTuple.Job.Started.ns : ℤ) : ℚ) / 60000000000)) := by
  refine ⟨rfl, ?_⟩
  simp only [TerminalOp.run, jobFail, updateProject, issued, updateOrLog_trace,
    List.append_assoc, drop_length_append, Duration.Minutes_eq]
  refine ⟨_, _, rfl, rfl, rfl, ?_, ?_⟩
  · simp [Doc.get, fieldGet, Time.Sub, T0, freshTuple, freshJob, maxDuration]
  · simp [Doc.get, fieldGet, Time.Sub, T0, freshTuple, freshJob, maxDuration]
    norm_num

/-- C5 (amended). Every terminal operation sets finished to the clock reading
and writes elapsed = Minutes(finished.Sub(started)) in the Job update, started
being the Job's started timestamp at call time. Whenever finished - started fits
a Duration (between -2^63 and 2^63 - 1 nanoseconds, about 292 years) this is
(finished - started) in minutes; and elapsed >= 0 whenever finished >= started.
When the Job write succeeds the stored Job document holds that elapsed value.
(Minutes is taken as the exact rational that Go rounds to float64.) -/
theorem C5_elapsed_minutes (op : TerminalOp) (now : Time) (t : SyncJob) (db : DB) :
    (op.run now t db).1.Job.Finished = now ∧
    ∃ w rest, issued db (op.run now t db).2 = w :: rest ∧
      w.coll = Coll.Jobs ∧ w.id = t.Job.ID ∧
      w.set.get "finished" = some (Value.time now) ∧
      w.set.get "elapsed" = some (Value.float (now.Sub t.Job.Started).Minutes) ∧
      (minDuration ≤ now.ns - t.Job.Started.ns → now.ns - t.Job.Started.ns ≤ maxDuration →
        w.set.get "elapsed" =
          some (Value.float (((now.ns - t.Job.Started.ns : ℤ) : ℚ) / 60000000000))) ∧
      (t.Job.Started.ns ≤ now.ns →
        ∃ q, w.set.get "elapsed" = some (Value.float q) ∧ 0 ≤ q) ∧
      (w.err = none →
        (findId ((op.run now t db).2.cols Coll.Jobs) t.Job.ID).map (fun d => d.get "elapsed")
          = some (w.set.get "elapsed")) := by
  have hfit : minDuration ≤ now.ns - t.Job.Started.ns →
      now.ns - t.Job.Started.ns ≤ maxDuration →
      (now.Sub t.Job.Started).Minutes
        = ((now.ns - t.Job.Started.ns : ℤ) : ℚ) / 60000000000 := by
    intro h1 h2
    rw [Duration.Minutes_eq, Time.Sub_of_fits now t.Job.Started h1 h2]
  have hpos : t.Job.Started.ns ≤ now.ns → 0 ≤ (now.Sub t.Job.Started).Minutes := by
    intro h
    rw [Duration.Minutes_eq]
    have h0 : (0 : ℚ) ≤ ((now.Sub t.Job.Started).ns : ℚ) := by
      exact_mod_cast Time.Sub_nonneg now t.Job.Started h
    positivity
  cases op <;>
  · simp only [TerminalOp.run, jobSuccess, jobFail, jobCancel, jobError, updateProject,
      issued, updateOrLog_trace, List.append_assoc, drop_length_append]
    refine ⟨trivial, _, _, rfl, rfl, rfl, ?_, ?_, ?_, ?_, ?_⟩
    · simp [Doc.get, fieldGet]
    · simp [Doc.get, fieldGet]
    · intro h1 h2
      simp [Doc.get, fieldGet, hfit h1 h2]
    · intro h
      exact ⟨_, by simp [Doc.get, fieldGet], hpos h⟩
    · intro h
      have f1 := (UpdateId_ok_iff _ _ _ _).1 h
      obtain ⟨j, hj⟩ := Option.isSome_iff_exists.1 f1.2
      dsimp only at h
      simp [updateOrLog_findId, h, hj, Doc.applySet, Doc.get_set]
      simp [Doc.get, fieldGet]

/-- C5 (amended) at the example scenario: started = T0 and finished = T0 + 5 min give elapsed = 5. -/
theorem C5_elapsed_minutes_witness :
    exTuple.Job.Started = T0 ∧ T5.ns = T0.ns + 5 * Minute ∧
    minDuration ≤ T5.ns - exTuple.Job.Started.ns ∧
    T5.ns - exTuple.Job.Started.ns ≤ maxDuration ∧
    ∃ w rest, issued exDB (TerminalOp.jobFail.run T5 exTuple exDB).2 = w :: rest ∧
      w.set.get "elapsed" = some (Value.float 5) := by
  obtain ⟨_, w, rest, h1, _, _, _, _, h6, _, _⟩ :=
    C5_elapsed_minutes TerminalOp.jobFail T5 exTuple exDB
  have ha : minDuration ≤ T5.ns - exTuple.Job.Started.ns := by decide
  have hb : T5.ns - exTuple.Job.Started.ns ≤ maxDuration := by decide
  refine ⟨rfl, by decide, ha, hb, w, rest, h1, ?_⟩
  rw [h6 ha hb]
  norm_num [T5, exTuple, exJob, T0]

/-- C6 (failing input). In the example scenario with the Project write failing,
jobFail issues two updates, on Jobs and on Projects, and makes no other store
call; the Project one fails and is logged ("Failed to update project"), the
operation returns its result, and no update of the JobTemplates collection is
attempted: the JobTemplate document is the one stored before. -/
theorem C6_no_jobTemplate_write :
    (∃ w ∈ issued faultyDB (TerminalOp.jobFail.run T5 exTuple faultyDB).2,
        w.coll = Coll.Projects ∧ w.err = some StoreErr.fault) ∧
    (issued faultyDB (TerminalOp.jobFail.run T5 exTuple faultyDB).2).map
        (fun w => (w.coll, w.id)) = [(Coll.Jobs, "j1"), (Coll.Projects, "p1")] ∧
    (called faultyDB (TerminalOp.jobFail.run T5 exTuple faultyDB).2).map
        (fun c => (c.coll, c.method))
      = [(Coll.Jobs, Method.UpdateId), (Coll.Projects, Method.UpdateId)] ∧
    (∀ w ∈ issued faultyDB (TerminalOp.jobFail.run T5 exTuple faultyDB).2,
        ¬ (w.coll = Coll.JobTemplates ∧ w.id = exTuple.Template.ID)) ∧
    (TerminalOp.jobFail.run T5 exTuple faultyDB).2.log = ["Failed to update project"] ∧
    (TerminalOp.jobFail.run T5 exTuple faultyDB).1.Job.Status = "failed" ∧
    (TerminalOp.jobFail.run T5 exTuple faultyDB).2.cols Coll.JobTemplates
      = faultyDB.cols Coll.JobTemplates := by
  decide

/-- C7. After jobCancel whose Job write succeeded, the stored Job document has
result_stdout = "stdout capture is missing" and job_explanation = "Job
Cancelled", whatever these two fields held in the store and on the Job value
passed in. -/
theorem C7_cancel_overwrite (now : Time) (t : SyncJob) (db : DB)
    (hok : ∀ w ∈ issued db (jobCancel now t db).2, w.coll = Coll.Jobs → w.err = none) :
    ∃ j, findId ((jobCancel now t db).2.cols Coll.Jobs) t.Job.ID = some j ∧
      j.get "result_stdout" = some (Value.str "stdout capture is missing") ∧
      j.get "job_explanation" = some (Value.str "Job Cancelled") := by
  simp only [jobCancel, updateProject, issued, updateOrLog_trace, List.append_assoc,
    drop_length_append] at hok ⊢
  simp only [List.cons_append, List.nil_append, List.mem_cons, List.mem_singleton,
    forall_eq_or_imp, forall_eq, List.not_mem_nil, false_imp_iff, implies_true,
    and_true, forall_const, reduceCtorEq] at hok
  have f1 := (UpdateId_ok_iff _ _ _ _).1 hok
  obtain ⟨j, hj⟩ := Option.isSome_iff_exists.1 f1.2
  simp [updateOrLog_findId, hok, hj, Doc.applySet, Doc.get_set]

/-- C7 at the example scenario: stdout "build error" on the Job value and "half a log" in the store are both replaced. -/
theorem C7_cancel_overwrite_witness :
    (∀ w ∈ issued exDB (jobCancel T5 exTuple exDB).2, w.coll = Coll.Jobs → w.err = none) ∧
    exTuple.Job.ResultStdout = "build error" ∧
    (findId (exDB.cols Coll.Jobs) "j1").map (fun d => d.get "result_stdout")
      = some (some (Value.str "half a log")) ∧
    ∃ j, findId ((jobCancel T5 exTuple exDB).2.cols Coll.Jobs) exTuple.Job.ID = some j ∧
      j.get "result_stdout" = some (Value.str "stdout capture is missing") ∧
      j.get "job_explanation" = some (Value.str "Job Cancelled") :=
  have h : ∀ w ∈ issued exDB (jobCancel T5 exTuple exDB).2,
      w.coll = Coll.Jobs → w.err = none := by
    decide
  ⟨h, rfl, by decide, C7_cancel_overwrite T5 exTuple exDB h⟩

/-- C8 (counterexample). In the example scenario the stored Job J1 has
cancel_flag = false. After jobCancel it has cancel_flag = true, and cancel_flag
is not among status, failed, finished, elapsed, result_stdout, job_explanation,
job_args, job_env, job_cwd. -/
theorem C8_counterexample :
    "cancel_flag" ∉ terminalFields ∧
    (findId (exDB.cols Coll.Jobs) "j1").map (fun d => d.get "cancel_flag")
      = some (some (Value.bool false)) ∧
    (findId ((TerminalOp.jobCancel.run T5 exTuple exDB).2.cols Coll.Jobs) "j1").map
        (fun d => d.get "cancel_flag")
      = some (some (Value.bool true)) := by
  decide

/-- C8 (amended). Every lifecycle operation is a partial update. start changes
only status, started and failed of the stored Job keyed by the Job's ID. Each
terminal operation changes only status, failed, finished, elapsed,
result_stdout, job_explanation, job_args, job_env and job_cwd (and, for
jobCancel, cancel_flag) of that stored Job, and only last_updated,
last_update_failed and status of the stored Project keyed by the Project's ID.
Every other field of every document has the value it had, no document is created
or removed, and every collection other than Jobs (for start) or Jobs and
Projects (for a terminal operation), JobTemplates included, is unchanged. -/
theorem C8_frame (op : TerminalOp) (now : Time) (t : SyncJob) (db : DB) :
    (∀ c id k, ¬ (c = Coll.Jobs ∧ id = t.Job.ID ∧ k ∈ startFields) →
      (findId ((start now t db).2.cols c) id).map (fun d => d.get k)
        = (findId (db.cols c) id).map (fun d => d.get k)) ∧
    (∀ c id, (findId ((start now t db).2.cols c) id).isSome = (findId (db.cols c) id).isSome) ∧
    (∀ c, c ≠ Coll.Jobs → (start now t db).2.cols c = db.cols c) ∧
    (∀ c id k,
      ¬ (c = Coll.Jobs ∧ id = t.Job.ID ∧
          (k ∈ terminalFields ∨ (op = TerminalOp.jobCancel ∧ k = "cancel_flag"))) →
      ¬ (c = Coll.Projects ∧ id = t.Project.ID ∧ k ∈ projectFields) →
      (findId ((op.run now t db).2.cols c) id).map (fun d => d.get k)
        = (findId (db.cols c) id).map (fun d => d.get k)) ∧
    (∀ c id, (findId ((op.run now t db).2.cols c) id).isSome
        = (findId (db.cols c) id).isSome) ∧
    (∀ c, c ≠ Coll.Jobs → c ≠ Coll.Projects → (op.run now t db).2.cols c = db.cols c) := by
  refine ⟨?_, ?_, ?_, ?_, ?_, ?_⟩
  · intro c id k h
    exact updateOrLog_frame _ _ _ _ _ _ _ _ (by simpa [startFields] using h)
  · intro c id
    exact updateOrLog_isSome _ _ _ _ _ _ _
  · intro c h
    exact updateOrLog_cols_other _ _ _ _ _ _ h
  · intro c id k h1 h2
    cases op <;>
    · simp only [TerminalOp.run, jobSuccess, jobFail, jobCancel, jobError, updateProject]
      rw [updateOrLog_frame _ _ _ _ _ _ _ _ (by simpa [projectFields] using h2)]
      exact updateOrLog_frame _ _ _ _ _ _ _ _ (by
        intro hh
        apply h1
        simp [terminalFields] at hh ⊢
        tauto)
  · intro c id
    cases op <;>
    · simp only [TerminalOp.run, jobSuccess, jobFail, jobCancel, jobError, updateProject]
      rw [updateOrLog_isSome, updateOrLog_isSome]
  · intro c h1 h2
    cases op <;>
    · simp only [TerminalOp.run, jobSuccess, jobFail, jobCancel, jobError, updateProject]
      rw [updateOrLog_cols_other _ _ _ _ _ _ h2, updateOrLog_cols_other _ _ _ _ _ _ h1]

/-- C8 (amended) at the example scenario: jobCancel keeps the name of J1 and the whole JobTemplates collection. -/
theorem C8_frame_witness :
    ¬ (Coll.Jobs = Coll.Jobs ∧ "j1" = exTuple.Job.ID ∧
        ("name" ∈ terminalFields ∨ (TerminalOp.jobCancel = TerminalOp.jobCancel ∧
          "name" = "cancel_flag"))) ∧
    ¬ (Coll.Jobs = Coll.Projects ∧ "j1" = exTuple.Project.ID ∧ "name" ∈ projectFields) ∧
    (findId ((TerminalOp.jobCancel.run T5 exTuple exDB).2.cols Coll.Jobs) "j1").map
        (fun d => d.get "name") = some (some (Value.str "sync")) ∧
    (TerminalOp.jobCancel.run T5 exTuple exDB).2.cols Coll.JobTemplates
      = [("jt1", ⟨[("name", Value.str "tpl"), ("status", Value.str "pending")]⟩)] :=
  have h1 : ¬ (Coll.Jobs = Coll.Jobs ∧ "j1" = exTuple.Job.ID ∧
      ("name" ∈ terminalFields ∨ (TerminalOp.jobCancel = TerminalOp.jobCancel ∧
        "name" = "cancel_flag"))) := by
    decide
  have h2 : ¬ (Coll.Jobs = Coll.Projects ∧ "j1" = exTuple.Project.ID ∧
      "name" ∈ projectFields) := by
    decide
  have c := C8_frame TerminalOp.jobCancel T5 exTuple exDB
  ⟨h1, h2, (c.2.2.2.1 Coll.Jobs "j1" "name" h1 h2).trans (by decide),
    (c.2.2.2.2.2 Coll.JobTemplates (by decide) (by decide)).trans rfl⟩

/-- C9 (counterexample). Job J1 has failed (failed = true on the Job value).
start at T0 + 9 min, with its write succeeding, leaves the Job value's failed
flag true. -/
theorem C9_counterexample :
    failedTuple.Job.Failed = true ∧
    (∀ w ∈ issued failedDB (start T9 failedTuple failedDB).2, w.err = none) ∧
    (start T9 failedTuple failedDB).1.Job.Status = "running" ∧
    (start T9 failedTuple failedDB).1.Job.Failed = true := by
  decide

/-- C9 (amended). For every Job in any prior status, start sets the Job value's
status to "running" and its started timestamp to the clock reading, and issues
exactly one update, on the Job keyed by its ID, whose $set is status =
"running", failed = false, started = now; when that write succeeds the stored
Job has these three values. The failed flag of the Job value is not assigned: it
is after the call what it was before. -/
theorem C9_start (now : Time) (t : SyncJob) (db : DB) :
    (start now t db).1.Job.Status = "running" ∧
    (start now t db).1.Job.Started = now ∧
    (start now t db).1.Job.Failed = t.Job.Failed ∧
    (issued db (start now t db).2).map (fun w => (w.coll, w.id, w.set))
      = [(Coll.Jobs, t.Job.ID,
          ⟨[("status", Value.str "running"), ("failed", Value.bool false),
            ("started", Value.time now)]⟩)] ∧
    ((∀ w ∈ issued db (start now t db).2, w.err = none) →
      ∃ j, findId ((start now t db).2.cols Coll.Jobs) t.Job.ID = some j ∧
        j.get "status" = some (Value.str "running") ∧
        j.get "failed" = some (Value.bool false) ∧
        j.get "started" = some (Value.time now)) := by
  refine ⟨rfl, rfl, rfl, ?_, ?_⟩
  · simp [start, issued_updateOrLog]
  · intro hok
    simp only [start, issued_updateOrLog, List.mem_singleton, forall_eq] at hok ⊢
    have f1 := (UpdateId_ok_iff _ _ _ _).1 hok
    obtain ⟨j, hj⟩ := Option.isSome_iff_exists.1 f1.2
    simp [updateOrLog_findId, hok, hj, Doc.applySet, Doc.get_set]

/-- C9 (amended) at a failed Job J1: after start at T0 + 9 min the stored Job is running, not failed, started at T0 + 9 min. -/
theorem C9_start_witness :
    (∀ w ∈ issued failedDB (start T9 failedTuple failedDB).2, w.err = none) ∧
    ∃ j, findId ((start T9 failedTuple failedDB).2.cols Coll.Jobs) failedTuple.Job.ID = some j ∧
      j.get "status" = some (Value.str "running") ∧
      j.get "failed" = some (Value.bool false) ∧
      j.get "started" = some (Value.time T9) :=
  have h : ∀ w ∈ issued failedDB (start T9 failedTuple failedDB).2, w.err = none := by
    decide
  ⟨h, (C9_start T9 failedTuple failedDB).2.2.2.2 h⟩

/-- C10. After jobSuccess, jobFail or jobError whose Job write succeeded, the
stored Job document has result_stdout, job_explanation, job_args, job_env and
job_cwd equal to the values carried by the Job passed to the operation. -/
theorem C10_output_preserved (op : TerminalOp) (now : Time) (t : SyncJob) (db : DB)
    (hop : op ≠ TerminalOp.jobCancel)
    (hok : ∀ w ∈ issued db (op.run now t db).2, w.coll = Coll.Jobs → w.err = none) :
    ∃ j, findId ((op.run now t db).2.cols Coll.Jobs) t.Job.ID = some j ∧
      j.get "result_stdout" = some (Value.str t.Job.ResultStdout) ∧
      j.get "job_explanation" = some (Value.str t.Job.JobExplanation) ∧
      j.get "job_args" = some (Value.strs t.Job.JobARGS) ∧
      j.get "job_env" = some (Value.strs t.Job.JobENV) ∧
      j.get "job_cwd" = some (Value.str t.Job.JobCWD) := by
  cases op
  case jobCancel => exact absurd rfl hop
  all_goals
    simp only [TerminalOp.run, jobSuccess, jobFail, jobError, updateProject, issued,
      updateOrLog_trace, List.append_assoc, drop_length_append] at hok ⊢
    simp only [List.cons_append, List.nil_append, List.mem_cons, List.mem_singleton,
      forall_eq_or_imp, forall_eq, List.not_mem_nil, false_imp_iff, implies_true,
      and_true, forall_const, reduceCtorEq] at hok
    have f1 := (UpdateId_ok_iff _ _ _ _).1 hok
    obtain ⟨j, hj⟩ := Option.isSome_iff_exists.1 f1.2
    simp [updateOrLog_findId, hok, hj, Doc.applySet, Doc.get_set]

/-- C10 at the example scenario: jobFail stores result_stdout = "build error". -/
theorem C10_output_preserved_witness :
    TerminalOp.jobFail ≠ TerminalOp.jobCancel ∧
    (∀ w ∈ issued exDB (TerminalOp.jobFail.run T5 exTuple exDB).2,
        w.coll = Coll.Jobs → w.err = none) ∧
    ∃ j, findId ((TerminalOp.jobFail.run T5 exTuple exDB).2.cols Coll.Jobs) "j1" = some j ∧
      j.get "result_stdout" = some (Value.str "build error") :=
  have h : ∀ w ∈ issued exDB (TerminalOp.jobFail.run T5 exTuple exDB).2,
      w.coll = Coll.Jobs → w.err = none := by
    decide
  have c := C10_output_preserved TerminalOp.jobFail T5 exTuple exDB (by decide) h
  ⟨by decide, h, by
    obtain ⟨j, h1, h2, _⟩ := c
    exact ⟨j, h1, h2⟩⟩


/-! ## Lemmas on sequences, on the Job write and on inserts -/

theorem runOps_nil (t : SyncJob) (db : DB) : runOps [] t db = (t, db) := rfl

theorem runOps_snoc (ops : List LifecycleOp) (op : LifecycleOp) (t : SyncJob) (db : DB) :
    runOps (ops ++ [op]) t db = op.run (runOps ops t db).1 (runOps ops t db).2 := by
  simp [runOps, List.foldl_append]

/-- What one operation does to finished and status of the Job value. -/
theorem LifecycleOp.run_job (op : LifecycleOp) (t : SyncJob) (db : DB) :
    (op.run t db).1.Job.Finished
        = (match op with
           | .terminal _ now => now
           | _ => t.Job.Finished) ∧
    (op.run t db).1.Job.Status
        = (match op with
           | .start _ => "running"
           | .status s => s
           | .terminal .jobSuccess _ => "successful"
           | .terminal .jobFail _ => "failed"
           | .terminal .jobCancel _ => "canceled"
           | .terminal .jobError _ => "error") := by
  cases op with
  | start now => exact ⟨rfl, rfl⟩
  | status s => exact ⟨rfl, rfl⟩
  | terminal o now => cases o <;> exact ⟨rfl, rfl⟩

theorem exists_terminal_snoc (l : List LifecycleOp) (a : LifecycleOp) :
    (∃ op ∈ l ++ [a], op.isTerminal = true) ↔
      ((∃ op ∈ l, op.isTerminal = true) ∨ a.isTerminal = true) := by
  constructor
  · rintro ⟨op, hop, h⟩
    rcases List.mem_append.1 hop with h1 | h1
    · exact Or.inl ⟨op, h1, h⟩
    · rw [List.mem_singleton] at h1
      subst h1
      exact Or.inr h
  · rintro (⟨op, hop, h⟩ | h)
    · exact ⟨op, List.mem_append_left _ hop, h⟩
    · exact ⟨a, by simp, h⟩

/-- Finished is set after a sequence exactly when it was set before or a
terminal operation is in the sequence (the clock never reading the zero Time). -/
theorem runOps_finished (ops : List LifecycleOp) (t : SyncJob) (db : DB)
    (hclock : ∀ o now, LifecycleOp.terminal o now ∈ ops → now.IsZero = false) :
    ((runOps ops t db).1.Job.Finished.IsZero = false ↔
      (t.Job.Finished.IsZero = false ∨ ∃ op ∈ ops, op.isTerminal = true)) := by
  induction ops using List.reverseRecOn with
  | nil => simp [runOps_nil]
  | append_singleton l a ih =>
    have ih' := ih (fun o now h => hclock o now (List.mem_append_left _ h))
    rw [runOps_snoc, (LifecycleOp.run_job a _ _).1, exists_terminal_snoc]
    cases a with
    | start now =>
      have e : (LifecycleOp.start now).isTerminal = false := rfl
      simp [ih', e]
    | status s =>
      have e : (LifecycleOp.status s).isTerminal = false := rfl
      simp [ih', e]
    | terminal o now =>
      have hz := hclock o now (by simp)
      have e : (LifecycleOp.terminal o now).isTerminal = true := rfl
      simp [hz, e]

/-! ## Claims C11 to C20 -/

/-- C11 (counterexample). Job J1 starts pending with finished unset. After
jobFail at T0 + 5 min followed by start at T0 + 9 min, its status is "running",
which is not terminal, while finished is set (T0 + 5 min), on the Job value and
in the stored document. -/
theorem C11_counterexample :
    freshTuple.Job.Status = "pending" ∧ freshTuple.Job.Finished.IsZero = true ∧
    (runOps [LifecycleOp.terminal TerminalOp.jobFail T5, LifecycleOp.start T9]
        freshTuple pendingDB).1.Job.Status = "running" ∧
    isTerminalStatus "running" = false ∧
    (runOps [LifecycleOp.terminal TerminalOp.jobFail T5, LifecycleOp.start T9]
        freshTuple pendingDB).1.Job.Finished = T5 ∧
    T5.IsZero = false ∧
    (findId ((runOps [LifecycleOp.terminal TerminalOp.jobFail T5, LifecycleOp.start T9]
        freshTuple pendingDB).2.cols Coll.Jobs) "j1").map
        (fun d => (d.get "status", d.get "finished"))
      = some (some (Value.str "running"), some (Value.time T5)) := by
  decide

/-- The Job value after a sequence from a pending Job with finished unset:
finished is set exactly when a terminal operation has been applied, a terminal
status implies that finished is set, and the two coincide as long as no
operation follows a terminal one. -/
theorem runOps_job_value (ops : List LifecycleOp) (t : SyncJob) (db : DB)
    (h0 : t.Job.Status = "pending") (hf : t.Job.Finished.IsZero = true)
    (hclock : ∀ o now, LifecycleOp.terminal o now ∈ ops → now.IsZero = false)
    (hstatus : ∀ s, LifecycleOp.status s ∈ ops → isTerminalStatus s = false) :
    ((runOps ops t db).1.Job.Finished.IsZero = false ↔ ∃ op ∈ ops, op.isTerminal = true) ∧
    (isTerminalStatus (runOps ops t db).1.Job.Status = true →
      (runOps ops t db).1.Job.Finished.IsZero = false) ∧
    ((∀ pre last, ops = pre ++ [last] → ∀ op ∈ pre, op.isTerminal = false) →
      ((runOps ops t db).1.Job.Finished.IsZero = false ↔
        isTerminalStatus (runOps ops t db).1.Job.Status = true)) := by
  have h1 := runOps_finished ops t db hclock
  simp only [hf, Bool.true_eq_false, false_or] at h1
  refine ⟨h1, ?_, ?_⟩
  · intro hterm
    rcases List.eq_nil_or_concat ops with hnil | ⟨l, a, hla⟩
    · subst hnil
      rw [runOps_nil] at hterm
      simp only [h0] at hterm
      exact absurd hterm (by decide)
    · subst hla
      rw [List.concat_eq_append] at *
      rw [runOps_snoc, (LifecycleOp.run_job a _ _).2] at hterm
      rw [runOps_snoc, (LifecycleOp.run_job a _ _).1]
      cases a with
      | start now =>
        have hr : isTerminalStatus "running" = false := by decide
        simp only [hr] at hterm
        exact absurd hterm (by decide)
      | status s =>
        have hs := hstatus s (by simp)
        simp only [hs] at hterm
        exact absurd hterm (by decide)
      | terminal o now => exact hclock o now (by simp)
  · intro hlegal
    rcases List.eq_nil_or_concat ops with hnil | ⟨l, a, hla⟩
    · subst hnil
      simp only [runOps_nil, hf, h0]
      decide
    · subst hla
      rw [List.concat_eq_append] at *
      have hpre := hlegal l a rfl
      have hl := runOps_finished l t db (fun o now h => hclock o now (List.mem_append_left _ h))
      have hlz : (runOps l t db).1.Job.Finished.IsZero = true := by
        by_contra hne
        have hne' : (runOps l t db).1.Job.Finished.IsZero = false := by simpa using hne
        rcases hl.1 hne' with h | ⟨op, hop, hterm⟩
        · simp [hf] at h
        · simp [hpre op hop] at hterm
      rw [runOps_snoc, (LifecycleOp.run_job a _ _).1, (LifecycleOp.run_job a _ _).2]
      cases a with
      | start now => simp only [hlz]; decide
      | status s =>
        have hs := hstatus s (by simp)
        simp only [hlz, hs]
        decide
      | terminal o now =>
        have hz := hclock o now (by simp)
        cases o <;> simp only [hz] <;> decide

theorem docFinishedSet_congr (d d' : Doc) (h : d'.get "finished" = d.get "finished") :
    docFinishedSet d' = docFinishedSet d := by
  unfold docFinishedSet
  rw [h]

theorem docFinishedSet_of_time (d : Doc) (now : Time)
    (h : d.get "finished" = some (Value.time now)) : docFinishedSet d = !now.IsZero := by
  unfold docFinishedSet
  rw [h]

theorem docStatusTerminal_of_str (d : Doc) (s : String)
    (h : d.get "status" = some (Value.str s)) : docStatusTerminal d = isTerminalStatus s := by
  unfold docStatusTerminal
  rw [h]

/-- One logged update of a Job document: its trace entry and what a lookup of
that document finds afterwards. -/
theorem jobUpdate_store (id : ObjectId) (m : Doc) (msg : String) (db r : DB)
    (hr : r = updateOrLog Coll.Jobs id m msg db) :
    ∃ e : Option StoreErr, r.trace = db.trace ++ [⟨Coll.Jobs, id, m, e⟩] ∧
      (e ≠ none → findId (r.cols Coll.Jobs) id = findId (db.cols Coll.Jobs) id) ∧
      (e = none → ∃ d, findId (db.cols Coll.Jobs) id = some d ∧
        findId (r.cols Coll.Jobs) id = some (d.applySet m)) := by
  subst hr
  refine ⟨(UpdateId Coll.Jobs id m db).1, updateOrLog_trace _ _ _ _ _, ?_, ?_⟩
  · intro he
    rw [updateOrLog_findId]
    simp [he]
  · intro he
    have f := (UpdateId_ok_iff _ _ _ _).1 he
    obtain ⟨d, hd⟩ := Option.isSome_iff_exists.1 f.2
    refine ⟨d, hd, ?_⟩
    rw [updateOrLog_findId]
    simp [he, hd]

/-- The same for a Job update followed by a Project update. -/
theorem jobUpdate_project_store (id pid : ObjectId) (m m2 : Doc) (msg msg2 : String)
    (db r : DB)
    (hr : r = updateOrLog Coll.Projects pid m2 msg2 (updateOrLog Coll.Jobs id m msg db)) :
    ∃ e e2 : Option StoreErr,
      r.trace = db.trace ++ [⟨Coll.Jobs, id, m, e⟩, ⟨Coll.Projects, pid, m2, e2⟩] ∧
      (e ≠ none → findId (r.cols Coll.Jobs) id = findId (db.cols Coll.Jobs) id) ∧
      (e = none → ∃ d, findId (db.cols Coll.Jobs) id = some d ∧
        findId (r.cols Coll.Jobs) id = some (d.applySet m)) := by
  obtain ⟨e, htr, hne, hok⟩ := jobUpdate_store id m msg db _ rfl
  subst hr
  refine ⟨e, (UpdateId Coll.Projects pid m2 (updateOrLog Coll.Jobs id m msg db)).1, ?_, ?_, ?_⟩
  · rw [updateOrLog_trace, htr]
    simp
  · intro he
    rw [updateOrLog_cols_other _ _ _ _ _ _ (by decide)]
    exact hne he
  · intro he
    rw [updateOrLog_cols_other _ _ _ _ _ _ (by decide)]
    exact hok he

/-- What one lifecycle operation does to the stored Job: with `e` the outcome of
its Job write, the stored document is untouched when the write fails, and when
it succeeds it has the status of the Job value and finished = now (terminal
operation) or the finished it had (start, status). -/
theorem LifecycleOp.run_store (a : LifecycleOp) (t : SyncJob) (db : DB) :
    ∃ (e : Option StoreErr) (L : List Write),
      (a.run t db).2.trace = db.trace ++ L ∧
      ((∀ w ∈ L, w.coll = Coll.Jobs → w.err = none) ↔ e = none) ∧
      (a.run t db).1.Job.ID = t.Job.ID ∧
      (e ≠ none →
        findId ((a.run t db).2.cols Coll.Jobs) t.Job.ID = findId (db.cols Coll.Jobs) t.Job.ID) ∧
      (e = none → ∃ d d', findId (db.cols Coll.Jobs) t.Job.ID = some d ∧
        findId ((a.run t db).2.cols Coll.Jobs) t.Job.ID = some d' ∧
        d'.get "status" = some (Value.str (a.run t db).1.Job.Status) ∧
        d'.get "finished"
          = (match a with
             | .terminal _ now => some (Value.time now)
             | _ => d.get "finished")) := by
  cases a with
  | start now =>
    obtain ⟨e, htr, hne, hok⟩ :=
      jobUpdate_store _ _ _ db ((LifecycleOp.start now).run t db).2 rfl
    refine ⟨e, _, htr, by simp, rfl, hne, fun he => ?_⟩
    obtain ⟨d, hd, hd'⟩ := hok he
    refine ⟨d, _, hd, hd', ?_, ?_⟩
    · show (Doc.applySet d _).get "status" = some (Value.str "running")
      simp [Doc.applySet, Doc.get_set]
    · simp [Doc.applySet, Doc.get_set]
  | status s =>
    obtain ⟨e, htr, hne, hok⟩ :=
      jobUpdate_store _ _ _ db ((LifecycleOp.status s).run t db).2 rfl
    refine ⟨e, _, htr, by simp, rfl, hne, fun he => ?_⟩
    obtain ⟨d, hd, hd'⟩ := hok he
    refine ⟨d, _, hd, hd', ?_, ?_⟩
    · show (Doc.applySet d _).get "status" = some (Value.str s)
      simp [Doc.applySet, Doc.get_set]
    · simp [Doc.applySet, Doc.get_set]
  | terminal o now =>
    cases o with
    | jobSuccess =>
      obtain ⟨e, e2, htr, hne, hok⟩ :=
        jobUpdate_project_store _ _ _ _ _ _ db
          ((LifecycleOp.terminal TerminalOp.jobSuccess now).run t db).2 rfl
      refine ⟨e, _, htr, by simp, rfl, hne, fun he => ?_⟩
      obtain ⟨d, hd, hd'⟩ := hok he
      refine ⟨d, _, hd, hd', ?_, ?_⟩
      · show (Doc.applySet d _).get "status" = some (Value.str "successful")
        simp [Doc.applySet, Doc.get_set]
      · simp [Doc.applySet, Doc.get_set]
    | jobFail =>
      obtain ⟨e, e2, htr, hne, hok⟩ :=
        jobUpdate_project_store _ _ _ _ _ _ db
          ((LifecycleOp.terminal TerminalOp.jobFail now).run t db).2 rfl
      refine ⟨e, _, htr, by simp, rfl, hne, fun he => ?_⟩
      obtain ⟨d, hd, hd'⟩ := hok he
      refine ⟨d, _, hd, hd', ?_, ?_⟩
      · show (Doc.applySet d _).get "status" = some (Value.str "failed")
        simp [Doc.applySet, Doc.get_set]
      · simp [Doc.applySet, Doc.get_set]
    | jobCancel =>
      obtain ⟨e, e2, htr, hne, hok⟩ :=
        jobUpdate_project_store _ _ _ _ _ _ db
          ((LifecycleOp.terminal TerminalOp.jobCancel now).run t db).2 rfl
      refine ⟨e, _, htr, by simp, rfl, hne, fun he => ?_⟩
      obtain ⟨d, hd, hd'⟩ := hok he
      refine ⟨d, _, hd, hd', ?_, ?_⟩
      · show (Doc.applySet d _).get "status" = some (Value.str "canceled")
        simp [Doc.applySet, Doc.get_set]
      · simp [Doc.applySet, Doc.get_set]
    | jobError =>
      obtain ⟨e, e2, htr, hne, hok⟩ :=
        jobUpdate_project_store _ _ _ _ _ _ db
          ((LifecycleOp.terminal TerminalOp.jobError now).run t db).2 rfl
      refine ⟨e, _, htr, by simp, rfl, hne, fun he => ?_⟩
      obtain ⟨d, hd, hd'⟩ := hok he
      refine ⟨d, _, hd, hd', ?_, ?_⟩
      · show (Doc.applySet d _).get "status" = some (Value.str "error")
        simp [Doc.applySet, Doc.get_set]
      · simp [Doc.applySet, Doc.get_set]

theorem runOpsByValue_snoc (ops : List LifecycleOp) (op : LifecycleOp) (t : SyncJob) (db : DB) :
    runOpsByValue (ops ++ [op]) t db = (op.run t (runOpsByValue ops t db)).2 := by
  simp [runOpsByValue, List.foldl_append]

theorem runOps_job_id (ops : List LifecycleOp) (t : SyncJob) (db : DB) :
    (runOps ops t db).1.Job.ID = t.Job.ID := by
  induction ops using List.reverseRecOn with
  | nil => rfl
  | append_singleton l a ih =>
    obtain ⟨e, La, _, _, hid, _, _⟩ :=
      LifecycleOp.run_store a (runOps l t db).1 (runOps l t db).2
    rw [runOps_snoc, hid, ih]

/-- The stored Job along a sequence of lifecycle operations on the Job `id`,
from a store in which the Job document (if any) has no terminal status and no
finished. `F l` is the store after the operations `l` and `T l` the tuple
handed to the operation that follows them. For every outcome of the writes, a
terminal status in the stored document implies that its finished is set, and a
set finished implies that a terminal operation was applied. When every Job
write succeeds, finished is set in the stored document exactly when a terminal
operation was applied, and the document has the status the last operation
assigned. -/
theorem lifecycle_store (id : ObjectId) (db : DB)
    (F : List LifecycleOp → DB) (T : List LifecycleOp → SyncJob)
    (hnil : F [] = db) (hsnoc : ∀ l a, F (l ++ [a]) = (a.run (T l) (F l)).2)
    (hT : ∀ l, (T l).Job.ID = id)
    (ops : List LifecycleOp)
    (hclock : ∀ o now, LifecycleOp.terminal o now ∈ ops → now.IsZero = false)
    (hstatus : ∀ s, LifecycleOp.status s ∈ ops → isTerminalStatus s = false)
    (hd0 : ∀ d, findId (db.cols Coll.Jobs) id = some d →
      docStatusTerminal d = false ∧ docFinishedSet d = false) :
    ∃ L, (F ops).trace = db.trace ++ L ∧
      (∀ d', findId ((F ops).cols Coll.Jobs) id = some d' →
        (docStatusTerminal d' = true → docFinishedSet d' = true) ∧
        (docFinishedSet d' = true → ∃ op ∈ ops, op.isTerminal = true)) ∧
      ((∀ w ∈ L, w.coll = Coll.Jobs → w.err = none) →
        (∀ d', findId ((F ops).cols Coll.Jobs) id = some d' →
          (docFinishedSet d' = true ↔ ∃ op ∈ ops, op.isTerminal = true)) ∧
        (∀ l a, ops = l ++ [a] →
          ∃ d', findId ((F ops).cols Coll.Jobs) id = some d' ∧
            d'.get "status" = some (Value.str (a.run (T l) (F l)).1.Job.Status))) := by
  induction ops using List.reverseRecOn with
  | nil =>
    refine ⟨[], by simp [hnil], ?_, ?_⟩
    · intro d' hd'
      rw [hnil] at hd'
      obtain ⟨h1, h2⟩ := hd0 d' hd'
      simp [h1, h2]
    · intro _
      refine ⟨?_, fun l a h => absurd h (by simp)⟩
      intro d' hd'
      rw [hnil] at hd'
      simp [(hd0 d' hd').2]
  | append_singleton l a ih =>
    obtain ⟨L, hL, hinv, hsucc⟩ := ih
      (fun o now h => hclock o now (List.mem_append_left _ h))
      (fun s h => hstatus s (List.mem_append_left _ h))
    obtain ⟨e, La, htr, hLa, _, hne, hok⟩ := LifecycleOp.run_store a (T l) (F l)
    rw [hT l] at hne hok
    rw [← hsnoc] at htr hne hok
    refine ⟨L ++ La, by rw [htr, hL, List.append_assoc], ?_, ?_⟩
    · intro d' hd'
      by_cases he : e = none
      · obtain ⟨d, d1, hd, hd1, hst, hfin⟩ := hok he
        rw [hd1] at hd'
        have hdd : d1 = d' := Option.some.inj hd'
        rw [hdd] at hst hfin
        clear hd' hd1 hdd d1
        rw [(LifecycleOp.run_job _ _ _).2] at hst
        cases a with
        | start now =>
          have hst' : d'.get "status" = some (Value.str "running") := hst
          have hnt : docStatusTerminal d' = false := by
            rw [docStatusTerminal_of_str d' _ hst']; decide
          refine ⟨fun h => absurd h (by simp [hnt]), fun h => ?_⟩
          rw [docFinishedSet_congr d d' hfin] at h
          obtain ⟨op, hop, ht⟩ := (hinv d hd).2 h
          exact ⟨op, List.mem_append_left _ hop, ht⟩
        | status s =>
          have hst' : d'.get "status" = some (Value.str s) := hst
          have hnt : docStatusTerminal d' = false := by
            rw [docStatusTerminal_of_str d' _ hst']
            exact hstatus s (by simp)
          refine ⟨fun h => absurd h (by simp [hnt]), fun h => ?_⟩
          rw [docFinishedSet_congr d d' hfin] at h
          obtain ⟨op, hop, ht⟩ := (hinv d hd).2 h
          exact ⟨op, List.mem_append_left _ hop, ht⟩
        | terminal o now =>
          have hz := hclock o now (by simp)
          have hset : docFinishedSet d' = true := by
            rw [docFinishedSet_of_time d' now hfin, hz]; rfl
          exact ⟨fun _ => hset, fun _ => ⟨LifecycleOp.terminal o now, by simp, rfl⟩⟩
      · rw [hne he] at hd'
        obtain ⟨h1, h2⟩ := hinv d' hd'
        refine ⟨h1, fun h => ?_⟩
        obtain ⟨op, hop, ht⟩ := h2 h
        exact ⟨op, List.mem_append_left _ hop, ht⟩
    · intro hall
      have hLok : ∀ w ∈ L, w.coll = Coll.Jobs → w.err = none :=
        fun w hw => hall w (List.mem_append_left _ hw)
      have he : e = none := hLa.1 (fun w hw => hall w (List.mem_append_right _ hw))
      obtain ⟨hfinl, _⟩ := hsucc hLok
      obtain ⟨d, d1, hd, hd1, hst, hfin⟩ := hok he
      refine ⟨?_, ?_⟩
      · intro d' hd'
        rw [hd1] at hd'
        have hdd : d1 = d' := Option.some.inj hd'
        rw [hdd] at hst hfin
        clear hd' hd1 hdd d1
        rw [exists_terminal_snoc, ← hfinl d hd]
        cases a with
        | start now =>
          have e1 : (LifecycleOp.start now).isTerminal = false := rfl
          rw [docFinishedSet_congr d d' hfin]
          simp [e1]
        | status s =>
          have e1 : (LifecycleOp.status s).isTerminal = false := rfl
          rw [docFinishedSet_congr d d' hfin]
          simp [e1]
        | terminal o now =>
          have hz := hclock o now (by simp)
          have e1 : (LifecycleOp.terminal o now).isTerminal = true := rfl
          have hset : docFinishedSet d' = true := by
            rw [docFinishedSet_of_time d' now hfin, hz]; rfl
          simp [e1, hset]
      · intro l' a' hla
        obtain ⟨hl, ha⟩ := List.append_inj' hla rfl
        have ha' : a = a' := by simpa using ha
        subst hl
        subst ha'
        exact ⟨d1, hd1, hst⟩

/-- The stored Job after a sequence in which every Job write succeeded and no
operation follows a terminal one: finished is set in the stored document
exactly when its status is terminal. -/
theorem lifecycle_store_legal (id : ObjectId) (db : DB)
    (F : List LifecycleOp → DB) (T : List LifecycleOp → SyncJob)
    (hnil : F [] = db) (hsnoc : ∀ l a, F (l ++ [a]) = (a.run (T l) (F l)).2)
    (hT : ∀ l, (T l).Job.ID = id)
    (ops : List LifecycleOp)
    (hclock : ∀ o now, LifecycleOp.terminal o now ∈ ops → now.IsZero = false)
    (hstatus : ∀ s, LifecycleOp.status s ∈ ops → isTerminalStatus s = false)
    (hd0 : ∀ d, findId (db.cols Coll.Jobs) id = some d →
      docStatusTerminal d = false ∧ docFinishedSet d = false)
    (hall : ∀ w ∈ issued db (F ops), w.coll = Coll.Jobs → w.err = none)
    (hlegal : ∀ pre last, ops = pre ++ [last] → ∀ op ∈ pre, op.isTerminal = false)
    (d' : Doc) (hd' : findId ((F ops).cols Coll.Jobs) id = some d') :
    (docFinishedSet d' = true ↔ docStatusTerminal d' = true) := by
  obtain ⟨L, hL, _, hsucc⟩ := lifecycle_store id db F T hnil hsnoc hT ops hclock hstatus hd0
  have hiss : issued db (F ops) = L := by
    unfold issued
    rw [hL, drop_length_append]
  rw [hiss] at hall
  obtain ⟨hfin, hlast⟩ := hsucc hall
  rcases List.eq_nil_or_concat ops with hnil' | ⟨l, a, hla⟩
  · subst hnil'
    rw [hnil] at hd'
    obtain ⟨h1, h2⟩ := hd0 d' hd'
    simp [h1, h2]
  · rw [List.concat_eq_append] at hla
    obtain ⟨d1, hd1, hst⟩ := hlast l a hla
    rw [hd'] at hd1
    have hdd : d' = d1 := Option.some.inj hd1
    rw [← hdd] at hst
    rw [(LifecycleOp.run_job _ _ _).2] at hst
    have hpre := hlegal l a hla
    have hex : (∃ op ∈ ops, op.isTerminal = true) ↔ a.isTerminal = true := by
      rw [hla, exists_terminal_snoc]
      constructor
      · rintro (⟨op, hop, h⟩ | h)
        · rw [hpre op hop] at h
          exact absurd h (by decide)
        · exact h
      · exact fun h => Or.inr h
    rw [hfin d' hd', hex]
    have hmem : a ∈ ops := by rw [hla]; simp
    cases a with
    | start now =>
      have hst' : d'.get "status" = some (Value.str "running") := hst
      have e1 : (LifecycleOp.start now).isTerminal = false := rfl
      rw [docStatusTerminal_of_str d' _ hst', e1]
      decide
    | status s =>
      have hst' : d'.get "status" = some (Value.str s) := hst
      have e1 : (LifecycleOp.status s).isTerminal = false := rfl
      rw [docStatusTerminal_of_str d' _ hst', hstatus s hmem, e1]
    | terminal o now =>
      have e1 : (LifecycleOp.terminal o now).isTerminal = true := rfl
      rw [e1]
      cases o with
      | jobSuccess =>
        have hst' : d'.get "status" = some (Value.str "successful") := hst
        rw [docStatusTerminal_of_str d' _ hst']
        decide
      | jobFail =>
        have hst' : d'.get "status" = some (Value.str "failed") := hst
        rw [docStatusTerminal_of_str d' _ hst']
        decide
      | jobCancel =>
        have hst' : d'.get "status" = some (Value.str "canceled") := hst
        rw [docStatusTerminal_of_str d' _ hst']
        decide
      | jobError =>
        have hst' : d'.get "status" = some (Value.str "error") := hst
        rw [docStatusTerminal_of_str d' _ hst']
        decide

/-- C11 (amended). From a Job in status "pending" with finished unset, whose
stored document (if any) has no terminal status and no finished, after any
finite sequence of lifecycle operations in which the clock never reads the zero
Time and status is given no terminal value.
On the Job value handed from one operation to the next: finished is set exactly
when a terminal operation has been applied, a terminal status implies that
finished is set, and finished is set exactly when the status is terminal as
long as no operation follows a terminal one.
In the stored Job document, whether the operations share the Job value
(`runOps`) or each works on its own copy of the caller's tuple
(`runOpsByValue`), and whatever the outcome of the writes: a terminal status
implies that finished is set, and a set finished implies that a terminal
operation was applied. When every Job write succeeded, finished is set in the
stored document exactly when a terminal operation was applied, and exactly when
the stored status is terminal as long as no operation follows a terminal one.
When every Job write succeeded and at least one operation ran, the stored
document exists and has the status of the Job value. An operation whose Job
write fails leaves the stored Job document as it was. -/
theorem C11_finished_iff_terminal_applied (ops : List LifecycleOp) (t : SyncJob) (db : DB)
    (h0 : t.Job.Status = "pending") (hf : t.Job.Finished.IsZero = true)
    (hclock : ∀ o now, LifecycleOp.terminal o now ∈ ops → now.IsZero = false)
    (hstatus : ∀ s, LifecycleOp.status s ∈ ops → isTerminalStatus s = false)
    (hd0 : ∀ d, findId (db.cols Coll.Jobs) t.Job.ID = some d →
      docStatusTerminal d = false ∧ docFinishedSet d = false) :
    ((runOps ops t db).1.Job.Finished.IsZero = false ↔ ∃ op ∈ ops, op.isTerminal = true) ∧
    (isTerminalStatus (runOps ops t db).1.Job.Status = true →
      (runOps ops t db).1.Job.Finished.IsZero = false) ∧
    ((∀ pre last, ops = pre ++ [last] → ∀ op ∈ pre, op.isTerminal = false) →
      ((runOps ops t db).1.Job.Finished.IsZero = false ↔
        isTerminalStatus (runOps ops t db).1.Job.Status = true)) ∧
    (∀ r, (r = (runOps ops t db).2 ∨ r = runOpsByValue ops t db) →
      ∀ d', findId (r.cols Coll.Jobs) t.Job.ID = some d' →
        (docStatusTerminal d' = true → docFinishedSet d' = true) ∧
        (docFinishedSet d' = true → ∃ op ∈ ops, op.isTerminal = true) ∧
        ((∀ w ∈ issued db r, w.coll = Coll.Jobs → w.err = none) →
          (docFinishedSet d' = true ↔ ∃ op ∈ ops, op.isTerminal = true) ∧
          ((∀ pre last, ops = pre ++ [last] → ∀ op ∈ pre, op.isTerminal = false) →
            (docFinishedSet d' = true ↔ docStatusTerminal d' = true)))) ∧
    ((∀ w ∈ issued db (runOps ops t db).2, w.coll = Coll.Jobs → w.err = none) → ops ≠ [] →
      ∃ d', findId ((runOps ops t db).2.cols Coll.Jobs) t.Job.ID = some d' ∧
        d'.get "status" = some (Value.str (runOps ops t db).1.Job.Status)) ∧
    (∀ (a : LifecycleOp) (u : SyncJob) (s : DB),
      (∃ w ∈ issued s (a.run u s).2, w.coll = Coll.Jobs ∧ w.err ≠ none) →
      findId ((a.run u s).2.cols Coll.Jobs) u.Job.ID = findId (s.cols Coll.Jobs) u.Job.ID) := by
  obtain ⟨v1, v2, v3⟩ := runOps_job_value ops t db h0 hf hclock hstatus
  have hS : ∀ l a, (fun l => (runOps l t db).2) (l ++ [a])
      = (a.run ((fun l => (runOps l t db).1) l) ((fun l => (runOps l t db).2) l)).2 := by
    intro l a
    show (runOps (l ++ [a]) t db).2 = _
    rw [runOps_snoc]
  have hV : ∀ l a, (fun l => runOpsByValue l t db) (l ++ [a])
      = (a.run ((fun _ => t) l) ((fun l => runOpsByValue l t db) l)).2 := by
    intro l a
    exact runOpsByValue_snoc l a t db
  refine ⟨v1, v2, v3, ?_, ?_, ?_⟩
  · intro r hr d' hd'
    rcases hr with hr | hr
    · subst hr
      obtain ⟨L, hL, hinv, hsucc⟩ := lifecycle_store t.Job.ID db
        (fun l => (runOps l t db).2) (fun l => (runOps l t db).1) rfl hS
        (fun l => runOps_job_id l t db) ops hclock hstatus hd0
      have hiss : issued db (runOps ops t db).2 = L := by
        unfold issued
        rw [hL, drop_length_append]
      refine ⟨(hinv d' hd').1, (hinv d' hd').2, fun hall => ⟨?_, fun hlegal => ?_⟩⟩
      · rw [hiss] at hall
        exact (hsucc hall).1 d' hd'
      · exact lifecycle_store_legal t.Job.ID db
          (fun l => (runOps l t db).2) (fun l => (runOps l t db).1) rfl hS
          (fun l => runOps_job_id l t db) ops hclock hstatus hd0 hall hlegal d' hd'
    · subst hr
      obtain ⟨L, hL, hinv, hsucc⟩ := lifecycle_store t.Job.ID db
        (fun l => runOpsByValue l t db) (fun _ => t) rfl hV
        (fun _ => rfl) ops hclock hstatus hd0
      have hiss : issued db (runOpsByValue ops t db) = L := by
        unfold issued
        rw [hL, drop_length_append]
      refine ⟨(hinv d' hd').1, (hinv d' hd').2, fun hall => ⟨?_, fun hlegal => ?_⟩⟩
      · rw [hiss] at hall
        exact (hsucc hall).1 d' hd'
      · exact lifecycle_store_legal t.Job.ID db
          (fun l => runOpsByValue l t db) (fun _ => t) rfl hV
          (fun _ => rfl) ops hclock hstatus hd0 hall hlegal d' hd'
  · intro hall hne
    obtain ⟨L, hL, _, hsucc⟩ := lifecycle_store t.Job.ID db
      (fun l => (runOps l t db).2) (fun l => (runOps l t db).1) rfl hS
      (fun l => runOps_job_id l t db) ops hclock hstatus hd0
    have hiss : issued db (runOps ops t db).2 = L := by
      unfold issued
      rw [hL, drop_length_append]
    rw [hiss] at hall
    rcases List.eq_nil_or_concat ops with hnil | ⟨l, a, hla⟩
    · exact absurd hnil hne
    · rw [List.concat_eq_append] at hla
      obtain ⟨d', hd', hst⟩ := (hsucc hall).2 l a hla
      refine ⟨d', hd', ?_⟩
      rw [hst, hla, runOps_snoc]
  · intro a u s hfail
    obtain ⟨e, L, htr, hL, _, hne, _⟩ := LifecycleOp.run_store a u s
    have hiss : issued s (a.run u s).2 = L := by
      unfold issued
      rw [htr, drop_length_append]
    rw [hiss] at hfail
    obtain ⟨w, hw, hc, he⟩ := hfail
    exact hne (fun h => he (hL.2 h w hw hc))

/-- C11 (amended) on the example sequence start, jobFail from the pending J1,
every write succeeding: the stored J1 has finished set and a terminal status,
under either way of handing the tuple on. -/
theorem C11_finished_iff_terminal_applied_witness :
    freshTuple.Job.Status = "pending" ∧ freshTuple.Job.Finished.IsZero = true ∧
    (∀ o now, LifecycleOp.terminal o now ∈ exOps → now.IsZero = false) ∧
    (∀ s, LifecycleOp.status s ∈ exOps → isTerminalStatus s = false) ∧
    (∀ d, findId (pendingDB.cols Coll.Jobs) freshTuple.Job.ID = some d →
      docStatusTerminal d = false ∧ docFinishedSet d = false) ∧
    (runOps exOps freshTuple pendingDB).1.Job.Finished.IsZero = false ∧
    isTerminalStatus (runOps exOps freshTuple pendingDB).1.Job.Status = true ∧
    (∀ d', findId ((runOps exOps freshTuple pendingDB).2.cols Coll.Jobs) freshTuple.Job.ID
        = some d' → docFinishedSet d' = true ∧ docStatusTerminal d' = true) ∧
    (∀ d', findId ((runOpsByValue exOps freshTuple pendingDB).cols Coll.Jobs) freshTuple.Job.ID
        = some d' → docFinishedSet d' = true ∧ docStatusTerminal d' = true) ∧
    (findId ((runOps exOps freshTuple pendingDB).2.cols Coll.Jobs) "j1").map
        (fun d => (d.get "status", d.get "finished"))
      = some (some (Value.str "failed"), some (Value.time T5)) :=
  have hc : ∀ o now, LifecycleOp.terminal o now ∈ exOps → now.IsZero = false := by
    intro o now h
    simp only [exOps, List.mem_cons, List.mem_singleton, reduceCtorEq, false_or,
      LifecycleOp.terminal.injEq, List.not_mem_nil, or_false] at h
    rw [h.2]
    decide
  have hs : ∀ s, LifecycleOp.status s ∈ exOps → isTerminalStatus s = false := by
    intro s h
    simp [exOps] at h
  have hfind : findId (pendingDB.cols Coll.Jobs) freshTuple.Job.ID
      = some ⟨[("name", .str "sync"), ("status", .str "pending"), ("failed", .bool false)]⟩ := by
    decide
  have hd : ∀ d, findId (pendingDB.cols Coll.Jobs) freshTuple.Job.ID = some d →
      docStatusTerminal d = false ∧ docFinishedSet d = false := by
    intro d h
    rw [hfind] at h
    have hdd := Option.some.inj h
    rw [← hdd]
    decide
  have hterm : ∃ op ∈ exOps, op.isTerminal = true :=
    ⟨LifecycleOp.terminal TerminalOp.jobFail T5, by simp [exOps], rfl⟩
  have hlegal : ∀ pre last, exOps = pre ++ [last] → ∀ op ∈ pre, op.isTerminal = false := by
    intro pre last h op hop
    have h' : [LifecycleOp.start T0] ++ [LifecycleOp.terminal TerminalOp.jobFail T5]
        = pre ++ [last] := h
    obtain ⟨hp, _⟩ := List.append_inj' h' rfl
    rw [← hp, List.mem_singleton] at hop
    rw [hop]
    rfl
  have c := C11_finished_iff_terminal_applied exOps freshTuple pendingDB rfl rfl hc hs hd
  ⟨rfl, rfl, hc, hs, hd, c.1.2 hterm, by decide,
    fun d' h =>
      have s := (c.2.2.2.1 _ (Or.inl rfl) d' h).2.2 (by decide)
      ⟨s.1.2 hterm, (s.2 hlegal).1 (s.1.2 hterm)⟩,
    fun d' h =>
      have s := (c.2.2.2.1 _ (Or.inr rfl) d' h).2.2 (by decide)
      ⟨s.1.2 hterm, (s.2 hlegal).1 (s.1.2 hterm)⟩,
    by decide⟩


theorem updateOrLog_calls (c : Coll) (id : ObjectId) (m : Doc) (msg : String) (db : DB) :
    (updateOrLog c id m msg db).calls
      = db.calls ++ [⟨c, Method.UpdateId, (UpdateId c id m db).1⟩] := by
  unfold updateOrLog UpdateId
  cases hf : db.faults.headD false <;> cases hd : findId (db.cols c) id <;>
    simp [hf, hd, DB.Errorln, DB.setColl]

/-- C12. If the Job write of a terminal operation fails, the operation makes
exactly one Job write attempt, keeps the new status, finished and failed on the
Job value (they are the ones it has when the write succeeds), logs the failure,
leaves the stored Jobs as they were, and still issues the Project update keyed
by the Project's ID carrying the new finished, failed and status. -/
theorem C12_job_write_failure (op : TerminalOp) (now : Time) (t : SyncJob) (db : DB)
    (hfail : ∃ w ∈ issued db (op.run now t db).2, w.coll = Coll.Jobs ∧ w.err ≠ none) :
    ((issued db (op.run now t db).2).filter (fun w => w.coll = Coll.Jobs)).length = 1 ∧
    (op.run now t db).1.Job.Finished = now ∧
    isTerminalStatus (op.run now t db).1.Job.Status = true ∧
    (∀ db', (op.run now t db').1 = (op.run now t db).1) ∧
    "Failed to update job status" ∈ (op.run now t db).2.log ∧
    (op.run now t db).2.cols Coll.Jobs = db.cols Coll.Jobs ∧
    ∃ wp ∈ issued db (op.run now t db).2,
      wp.coll = Coll.Projects ∧ wp.id = t.Project.ID ∧
      wp.set = ⟨[("last_updated", Value.time (op.run now t db).1.Job.Finished),
                 ("last_update_failed", Value.bool (op.run now t db).1.Job.Failed),
                 ("status", Value.str (op.run now t db).1.Job.Status)]⟩ := by
  cases op <;>
  · simp only [TerminalOp.run, jobSuccess, jobFail, jobCancel, jobError, updateProject,
      issued, updateOrLog_trace, List.append_assoc, drop_length_append] at hfail ⊢
    simp at hfail
    refine ⟨by simp [List.filter], trivial, by decide, fun _ => trivial, ?_, ?_, ?_⟩
    · simp only [updateOrLog_log, hfail, if_false]
      split <;> simp
    · rw [updateOrLog_cols_other _ _ _ _ _ _ (by decide), updateOrLog_cols,
        if_neg (by simpa using hfail)]
    · simp

/-- C12 on the example scenario, the store failing the Job write. -/
theorem C12_job_write_failure_witness :
    (∃ w ∈ issued jobFaultDB (TerminalOp.jobFail.run T5 exTuple jobFaultDB).2,
        w.coll = Coll.Jobs ∧ w.err ≠ none) ∧
    (TerminalOp.jobFail.run T5 exTuple jobFaultDB).1.Job.Status = "failed" ∧
    ((issued jobFaultDB (TerminalOp.jobFail.run T5 exTuple jobFaultDB).2).filter
        (fun w => w.coll = Coll.Jobs)).length = 1 ∧
    (TerminalOp.jobFail.run T5 exTuple jobFaultDB).2.cols Coll.Jobs
      = jobFaultDB.cols Coll.Jobs :=
  have h : ∃ w ∈ issued jobFaultDB (TerminalOp.jobFail.run T5 exTuple jobFaultDB).2,
      w.coll = Coll.Jobs ∧ w.err ≠ none := by
    decide
  have c := C12_job_write_failure TerminalOp.jobFail T5 exTuple jobFaultDB h
  ⟨h, rfl, c.1, c.2.2.2.2.2.1⟩

/-- C13. In every terminal operation, whatever the outcome of each write, the
store calls issued are the update of the Job document (keyed by the Job's ID)
first and the update of the Project document second; so the Job write precedes
every cascade write (Project, JobTemplate) in the sequence of store operations
issued. -/
theorem C13_job_write_first (op : TerminalOp) (now : Time) (t : SyncJob) (db : DB) :
    (issued db (op.run now t db).2).map (fun w => (w.coll, w.id))
      = [(Coll.Jobs, t.Job.ID), (Coll.Projects, t.Project.ID)] ∧
    (called db (op.run now t db).2).map (fun c => (c.coll, c.method))
      = [(Coll.Jobs, Method.UpdateId), (Coll.Projects, Method.UpdateId)] ∧
    (called db (op.run now t db).2).map (fun c => c.err)
      = (issued db (op.run now t db).2).map (fun w => w.err) ∧
    (∀ (i j : Nat) (wj wc : Write), (issued db (op.run now t db).2)[i]? = some wj →
      (issued db (op.run now t db).2)[j]? = some wc →
      wj.coll = Coll.Jobs → (wc.coll = Coll.Projects ∨ wc.coll = Coll.JobTemplates) →
      i < j) := by
  have h1 : (issued db (op.run now t db).2).map (fun w => (w.coll, w.id))
      = [(Coll.Jobs, t.Job.ID), (Coll.Projects, t.Project.ID)] := by
    cases op <;>
      simp [TerminalOp.run, jobSuccess, jobFail, jobCancel, jobError, updateProject, issued,
        updateOrLog_trace]
  refine ⟨h1, ?_, ?_, ?_⟩
  · cases op <;>
      simp [TerminalOp.run, jobSuccess, jobFail, jobCancel, jobError, updateProject, called,
        updateOrLog_calls]
  · cases op <;>
      simp [TerminalOp.run, jobSuccess, jobFail, jobCancel, jobError, updateProject, called,
        issued, updateOrLog_calls, updateOrLog_trace]
  · intro i j wj wc hi hj hcj hcc
    generalize issued db (op.run now t db).2 = l at h1 hi hj
    have hl : ∃ a b, l = [a, b] ∧ a.coll = Coll.Jobs ∧ b.coll = Coll.Projects := by
      match l, h1 with
      | [], h => simp at h
      | [_], h => simp at h
      | [a, b], h =>
        simp only [List.map_cons, List.map_nil, List.cons.injEq, Prod.mk.injEq,
          and_true] at h
        exact ⟨a, b, rfl, h.1.1, h.2.1⟩
      | _ :: _ :: _ :: _, h => simp at h
    obtain ⟨a, b, rfl, ha, hb⟩ := hl
    rcases i with _ | _ | i
    · rcases j with _ | j
      · simp only [List.getElem?_cons_zero, Option.some.injEq] at hi hj
        subst hi hj
        rw [ha] at hcc
        exact absurd hcc (by decide)
      · exact Nat.succ_pos j
    · simp only [List.getElem?_cons_succ, List.getElem?_cons_zero, Option.some.injEq] at hi
      subst hi
      rw [hb] at hcj
      exact absurd hcj (by decide)
    · simp at hi

/-- C13 on the example scenario. -/
theorem C13_job_write_first_witness :
    (issued exDB (TerminalOp.jobFail.run T5 exTuple exDB).2)[0]?.map (fun w => w.coll)
      = some Coll.Jobs ∧
    (issued exDB (TerminalOp.jobFail.run T5 exTuple exDB).2)[1]?.map (fun w => w.coll)
      = some Coll.Projects ∧
    0 < 1 := by
  obtain ⟨w0, h0⟩ : ∃ w, (issued exDB (TerminalOp.jobFail.run T5 exTuple exDB).2)[0]? = some w :=
    ⟨_, rfl⟩
  obtain ⟨w1, h1⟩ : ∃ w, (issued exDB (TerminalOp.jobFail.run T5 exTuple exDB).2)[1]? = some w :=
    ⟨_, rfl⟩
  have hc0 : w0.coll = Coll.Jobs := by
    have := h0; simp only [issued] at this; revert this; intro h; cases h; rfl
  have hc1 : w1.coll = Coll.Projects := by
    have := h1; simp only [issued] at this; revert this; intro h; cases h; rfl
  exact ⟨by rw [h0]; simp [hc0], by rw [h1]; simp [hc1],
    (C13_job_write_first TerminalOp.jobFail T5 exTuple exDB).2.2.2 0 1 w0 w1 h0 h1 hc0
      (Or.inl hc1)⟩

/-- An insert succeeds exactly when the store does not fail and the `_id` is
not yet in the collection. -/
theorem Insert_ok_iff (c : Coll) (id : ObjectId) (d : Doc) (db : DB) :
    (Insert c id d db).1 = none ↔
      db.faults.headD false = false ∧ findId (db.cols c) id = none := by
  unfold Insert
  cases hf : db.faults.headD false <;> cases hd : findId (db.cols c) id <;> simp [hf, hd]

theorem addActivity_calls (newId : ObjectId) (now : Time) (crdID userID : ObjectId)
    (desc jobtype : String) (db : DB) :
    (addActivity newId now crdID userID desc jobtype db).calls
      = db.calls ++ [⟨Coll.ActivityStream, Method.Insert,
          (Insert Coll.ActivityStream newId
            (Activity.toDoc ⟨newId, userID, jobtype, crdID, desc, now⟩) db).1⟩] := by
  unfold addActivity Insert
  cases hf : db.faults.headD false <;>
    cases hd : findId (db.cols Coll.ActivityStream) newId <;>
    simp [hf, hd, DB.Errorln, DB.setColl]

theorem addActivity_cols (newId : ObjectId) (now : Time) (crdID userID : ObjectId)
    (desc jobtype : String) (db : DB) :
    (addActivity newId now crdID userID desc jobtype db).cols
      = if (Insert Coll.ActivityStream newId
            (Activity.toDoc ⟨newId, userID, jobtype, crdID, desc, now⟩) db).1 = none then
          fun c' => if c' = Coll.ActivityStream then
            db.cols Coll.ActivityStream
              ++ [(newId, Activity.toDoc ⟨newId, userID, jobtype, crdID, desc, now⟩)]
          else db.cols c'
        else db.cols := by
  unfold addActivity Insert
  cases hf : db.faults.headD false <;>
    cases hd : findId (db.cols Coll.ActivityStream) newId <;>
    simp [hf, hd, DB.Errorln, DB.setColl]

/-- C14. A successful call addActivity(subjectID, actorID, description,
objectType) makes one Insert on the activity stream and adds exactly one
Activity after the stored ones, which stay as they were: its ID is the freshly
generated one (not in the stream before), ObjectID = subjectID, ActorID =
actorID, Description = description, Type = objectType, Created = now; no other
collection changes. A second successful call with the same arguments adds a
second record, under an ID different from the first. -/
theorem C14_addActivity_appends (newId : ObjectId) (now : Time) (crdID userID : ObjectId)
    (desc jobtype : String) (db : DB)
    (hok : ∀ c ∈ called db (addActivity newId now crdID userID desc jobtype db),
        c.err = none) :
    called db (addActivity newId now crdID userID desc jobtype db)
      = [⟨Coll.ActivityStream, Method.Insert, none⟩] ∧
    findId (db.cols Coll.ActivityStream) newId = none ∧
    (∃ a : Activity, a.ID = newId ∧ a.ObjectID = crdID ∧ a.ActorID = userID ∧
      a.Description = desc ∧ a.Type_ = jobtype ∧ a.Created = now ∧
      (addActivity newId now crdID userID desc jobtype db).cols Coll.ActivityStream
        = db.cols Coll.ActivityStream ++ [(a.ID, a.toDoc)] ∧
      a.toDoc.get "object_id" = some (Value.oid crdID) ∧
      a.toDoc.get "actor_id" = some (Value.oid userID) ∧
      a.toDoc.get "description" = some (Value.str desc) ∧
      a.toDoc.get "type" = some (Value.str jobtype) ∧
      a.toDoc.get "created" = some (Value.time now)) ∧
    (∀ c, c ≠ Coll.ActivityStream →
      (addActivity newId now crdID userID desc jobtype db).cols c = db.cols c) ∧
    (∀ newId' now',
      (∀ c ∈ called (addActivity newId now crdID userID desc jobtype db)
          (addActivity newId' now' crdID userID desc jobtype
            (addActivity newId now crdID userID desc jobtype db)), c.err = none) →
      newId' ≠ newId ∧
      (addActivity newId' now' crdID userID desc jobtype
          (addActivity newId now crdID userID desc jobtype db)).cols Coll.ActivityStream
        = db.cols Coll.ActivityStream
          ++ [(newId, Activity.toDoc ⟨newId, userID, jobtype, crdID, desc, now⟩),
              (newId', Activity.toDoc ⟨newId', userID, jobtype, crdID, desc, now'⟩)]) := by
  have h1 : (Insert Coll.ActivityStream newId
      (Activity.toDoc ⟨newId, userID, jobtype, crdID, desc, now⟩) db).1 = none := by
    simpa [called, addActivity_calls] using hok
  have hcols := addActivity_cols newId now crdID userID desc jobtype db
  rw [if_pos h1] at hcols
  refine ⟨?_, ((Insert_ok_iff _ _ _ _).1 h1).2, ?_, ?_, ?_⟩
  · simp [called, addActivity_calls, h1]
  · exact ⟨⟨newId, userID, jobtype, crdID, desc, now⟩, rfl, rfl, rfl, rfl, rfl, rfl,
      by rw [hcols]; simp, rfl, rfl, rfl, rfl, rfl⟩
  · intro c hc
    rw [hcols]
    simp [hc]
  · intro newId' now' hok'
    have h2 : (Insert Coll.ActivityStream newId'
        (Activity.toDoc ⟨newId', userID, jobtype, crdID, desc, now'⟩)
        (addActivity newId now crdID userID desc jobtype db)).1 = none := by
      simpa [called, addActivity_calls] using hok'
    have hfresh := ((Insert_ok_iff _ _ _ _).1 h2).2
    have hcols' := addActivity_cols newId' now' crdID userID desc jobtype
      (addActivity newId now crdID userID desc jobtype db)
    rw [if_pos h2] at hcols'
    refine ⟨?_, ?_⟩
    · intro he
      subst he
      rw [hcols] at hfresh
      have hmem : ∀ (l : Collection) (d : Doc),
          findId (l ++ [(newId', d)]) newId' ≠ none := by
        intro l d
        induction l with
        | nil => simp [findId]
        | cons hd tl ih =>
          obtain ⟨i, e⟩ := hd
          by_cases hi : i = newId' <;> simp [findId, hi, ih]
      exact hmem _ _ (by simpa using hfresh)
    · rw [hcols', hcols]
      simp

/-- C14 on the example store: one Activity is added after the stored one. -/
theorem C14_addActivity_appends_witness :
    (∀ c ∈ called pendingDB (addActivity "a1" T5 "j1" "u1" "Job j1 is running" "job" pendingDB),
        c.err = none) ∧
    (addActivity "a1" T5 "j1" "u1" "Job j1 is running" "job" pendingDB).cols
        Coll.ActivityStream
      = pendingDB.cols Coll.ActivityStream
        ++ [("a1", Activity.toDoc ⟨"a1", "u1", "job", "j1", "Job j1 is running", T5⟩)] :=
  have h : ∀ c ∈ called pendingDB
      (addActivity "a1" T5 "j1" "u1" "Job j1 is running" "job" pendingDB), c.err = none := by
    decide
  have c := C14_addActivity_appends "a1" T5 "j1" "u1" "Job j1 is running" "job" pendingDB h
  ⟨h, by
    obtain ⟨a, h1, h2, h3, h4, h5, h6, h7, _⟩ := c.2.2.1
    obtain ⟨i, u, ty, o, de, cr⟩ := a
    simp only at h1 h2 h3 h4 h5 h6
    subst h1 h2 h3 h4 h5 h6
    exact h7⟩

/-- C16. No job lifecycle operation (start, status, jobSuccess, jobFail,
jobCancel, jobError) invokes the Activity Recorder: whatever the outcome of its
store writes, the activity stream after the operation is the activity stream
before it, and every store call the operation makes is an UpdateId on a
collection other than the activity stream. -/
theorem C16_no_activity_recorded (op : LifecycleOp) (t : SyncJob) (db : DB) :
    (op.run t db).2.cols Coll.ActivityStream = db.cols Coll.ActivityStream ∧
    (∀ c ∈ called db (op.run t db).2,
      c.coll ≠ Coll.ActivityStream ∧ c.method = Method.UpdateId) := by
  cases op with
  | start now =>
    refine ⟨updateOrLog_cols_other _ _ _ _ _ _ (by decide), ?_⟩
    simp [LifecycleOp.run, start, called, updateOrLog_calls]
  | status s =>
    refine ⟨updateOrLog_cols_other _ _ _ _ _ _ (by decide), ?_⟩
    simp [LifecycleOp.run, status, called, updateOrLog_calls]
  | terminal o now =>
    cases o <;>
    · refine ⟨?_, ?_⟩
      · simp only [LifecycleOp.run, TerminalOp.run, jobSuccess, jobFail, jobCancel, jobError,
          updateProject]
        rw [updateOrLog_cols_other _ _ _ _ _ _ (by decide),
          updateOrLog_cols_other _ _ _ _ _ _ (by decide)]
      · simp [LifecycleOp.run, TerminalOp.run, jobSuccess, jobFail, jobCancel, jobError,
          updateProject, called, updateOrLog_calls]

/-- C16 on the example: jobFail at T0 + 5 min leaves the one recorded Activity. -/
theorem C16_no_activity_recorded_witness :
    ((LifecycleOp.terminal TerminalOp.jobFail T5).run freshTuple pendingDB).2.cols
        Coll.ActivityStream = pendingDB.cols Coll.ActivityStream :=
  (C16_no_activity_recorded (LifecycleOp.terminal TerminalOp.jobFail T5) freshTuple
    pendingDB).1

/-- C15 (failing inputs). UpdateUser with a valid body and DeleteUser, every
store call succeeding, mutate the Users collection and reply 204, yet record no
Activity: the activity stream stays empty and no store call touches it. AddUser
on the same store does record one. -/
theorem C15_user_update_delete_unrecorded :
    (UpdateUser bob (Except.ok bobReq) orgDB).replies = [Reply.AbortWithStatus 204] ∧
    (∀ c ∈ called orgDB (UpdateUser bob (Except.ok bobReq) orgDB).db, c.err = none) ∧
    (findId ((UpdateUser bob (Except.ok bobReq) orgDB).db.cols Coll.Users) "u2").map
        (fun d => d.get "first_name") = some (some (Value.str "Robert")) ∧
    (UpdateUser bob (Except.ok bobReq) orgDB).db.cols Coll.ActivityStream = [] ∧
    (∀ c ∈ called orgDB (UpdateUser bob (Except.ok bobReq) orgDB).db,
        c.coll ≠ Coll.ActivityStream) ∧
    (DeleteUser bob (fun _ d => d) orgDB).replies = [Reply.AbortWithStatus 204] ∧
    (∀ c ∈ called orgDB (DeleteUser bob (fun _ d => d) orgDB).db, c.err = none) ∧
    findId (orgDB.cols Coll.Users) "u2" ≠ none ∧
    findId ((DeleteUser bob (fun _ d => d) orgDB).db.cols Coll.Users) "u2" = none ∧
    (DeleteUser bob (fun _ d => d) orgDB).db.cols Coll.ActivityStream = [] ∧
    (∀ c ∈ called orgDB (DeleteUser bob (fun _ d => d) orgDB).db,
        c.coll ≠ Coll.ActivityStream) ∧
    ((AddUser ada (Except.ok bobReq) "u3" T5 "a1" T5 orgDB).db.cols Coll.ActivityStream).map
        (fun p => p.2.get "description")
      = [some (Value.str "User Ada Lovelace created")] := by
  decide

/-- C17 (the code at every job). Cancel replies 405 and nothing else, for every
job and every store, and leaves the store as it is: no job is canceled and no
reply has status 202. CancelInfo reports can_cancel = false for every job. -/
theorem C17_cancel_always_405 (job : Doc) (db : DB) :
    (Cancel job db).replies = [Reply.AbortWithStatus 405] ∧
    (Cancel job db).db = db ∧
    (¬ ∃ r ∈ (Cancel job db).replies, r.code = 202) ∧
    (CancelInfo job db).replies
      = [Reply.JSON 200 (Body.H [("can_cancel", Value.bool false)])] := by
  refine ⟨rfl, rfl, ?_, rfl⟩
  simp [Cancel, Reply.code]

/-- C18 (failing input). UpdateOrganization with the store failing its UpdateId
replies 500 with the error payload and then goes on: it records an Activity and
replies 201 with the request body. AddOrganization and RemoveOrganization, on a
failing Insert or RemoveAll, reply 500 only. RemoveOrganization with the Find of
the projects failing replies 204: the failure is not surfaced, the projects of
the organization stay and the organization is removed. -/
theorem C18_update_organization_replies_twice :
    (∃ c ∈ called orgFaultDB
        (UpdateOrganization acme ada (Except.ok acmeReq) "a1" T5 some orgFaultDB).db,
        c.coll = Coll.Organizations ∧ c.method = Method.UpdateId ∧ c.err = some StoreErr.fault) ∧
    (UpdateOrganization acme ada (Except.ok acmeReq) "a1" T5 some orgFaultDB).replies
      = [Reply.JSON 500 (Body.error 500 ["Error while updating Organization"]),
         Reply.JSON 201 (Body.organization acmeReq)] ∧
    (∃ r ∈ (UpdateOrganization acme ada (Except.ok acmeReq) "a1" T5 some orgFaultDB).replies,
        r.isSuccess = true) ∧
    ((UpdateOrganization acme ada (Except.ok acmeReq) "a1" T5 some orgFaultDB).db.cols
        Coll.ActivityStream).map (fun p => p.2.get "description")
      = [some (Value.str "Organization Acme Ltd updated")] ∧
    (AddOrganization ada (Except.ok acmeReq) "o3" T5 T5 "a1" T5 some orgFaultDB).replies
      = [Reply.JSON 500 (Body.error 500 ["Error while creating Organization"])] ∧
    (RemoveOrganization acme ada "a1" T5 { orgDB with faults := [false, true] }).replies
      = [Reply.JSON 500 (Body.error 500 ["Error while removing Project Jobs"])] ∧
    (RemoveOrganization acme ada "a1" T5 orgFaultDB).replies = [Reply.AbortWithStatus 204] ∧
    (called orgFaultDB (RemoveOrganization acme ada "a1" T5 orgFaultDB).db).head?
      = some ⟨Coll.Projects, Method.Find, some StoreErr.fault⟩ ∧
    ((RemoveOrganization acme ada "a1" T5 orgFaultDB).db.cols Coll.Projects).map (fun p => p.1)
      = ["p1", "p2", "p3"] ∧
    findId ((RemoveOrganization acme ada "a1" T5 orgFaultDB).db.cols Coll.Organizations) "o1"
      = none := by
  decide

/-! ## Lemmas on the store calls of the handlers -/

theorem RemoveAll_calls (c : Coll) (f : String) (v : Value) (db : DB) :
    (RemoveAll c f v db).2.calls = db.calls ++ [⟨c, Method.RemoveAll, (RemoveAll c f v db).1.1⟩] := by
  unfold RemoveAll
  cases hf : db.faults.headD false <;> simp [hf, DB.setColl]

theorem RemoveAll_cols_ite (c : Coll) (f : String) (v : Value) (db : DB) :
    (RemoveAll c f v db).2.cols
      = if (RemoveAll c f v db).1.1 = none then
          fun c' => if c' = c then (db.cols c).filter (fun p => !matchesSel f v p.2)
                    else db.cols c'
        else db.cols := by
  unfold RemoveAll
  cases hf : db.faults.headD false <;> simp [hf, DB.setColl]

theorem RemoveAll_cols (c : Coll) (f : String) (v : Value) (db : DB)
    (h : (RemoveAll c f v db).1.1 = none) :
    (RemoveAll c f v db).2.cols
      = fun c' => if c' = c then (db.cols c).filter (fun p => !matchesSel f v p.2)
                  else db.cols c' := by
  rw [RemoveAll_cols_ite, if_pos h]

theorem RemoveId_calls (c : Coll) (id : ObjectId) (db : DB) :
    (RemoveId c id db).2.calls = db.calls ++ [⟨c, Method.RemoveId, (RemoveId c id db).1⟩] := by
  unfold RemoveId
  cases hf : db.faults.headD false <;> cases hd : findId (db.cols c) id <;>
    simp [hf, hd, DB.setColl]

theorem RemoveId_cols_ite (c : Coll) (id : ObjectId) (db : DB) :
    (RemoveId c id db).2.cols
      = if (RemoveId c id db).1 = none then
          fun c' => if c' = c then eraseId (db.cols c) id else db.cols c'
        else db.cols := by
  unfold RemoveId
  cases hf : db.faults.headD false <;> cases hd : findId (db.cols c) id <;>
    simp [hf, hd, DB.setColl]

theorem RemoveId_cols (c : Coll) (id : ObjectId) (db : DB) (h : (RemoveId c id db).1 = none) :
    (RemoveId c id db).2.cols
      = fun c' => if c' = c then eraseId (db.cols c) id else db.cols c' := by
  rw [RemoveId_cols_ite, if_pos h]

theorem FindIter_calls (c : Coll) (f : String) (v : Value) (db : DB) :
    ∃ e, (FindIter c f v db).2.calls = db.calls ++ [⟨c, Method.Find, e⟩] ∧
      (e = none → (FindIter c f v db).1 = (db.cols c).filter (fun p => matchesSel f v p.2)) := by
  unfold FindIter
  cases hf : db.faults.headD false <;> simp [hf]

theorem FindIter_cols (c : Coll) (f : String) (v : Value) (db : DB) :
    (FindIter c f v db).2.cols = db.cols := by
  unfold FindIter
  cases hf : db.faults.headD false <;> simp [hf]

/-! ## Lists of keyed documents -/

theorem eraseId_eq_filter (c : Collection) (id : ObjectId) (h : (c.map Prod.fst).Nodup) :
    eraseId c id = c.filter (fun p => !decide (p.1 = id)) := by
  induction c with
  | nil => rfl
  | cons hd tl ih =>
    obtain ⟨i, d⟩ := hd
    simp only [List.map_cons, List.nodup_cons] at h
    by_cases hi : i = id
    · subst hi
      have hall : ∀ p ∈ tl, (!decide (p.1 = i)) = true := by
        intro p hp
        have : p.1 ≠ i := fun e => h.1 (e ▸ List.mem_map_of_mem Prod.fst hp)
        simpa using this
      simp only [eraseId, if_true, List.filter_cons, decide_True, Bool.not_true,
        Bool.false_eq_true, if_false]
      exact (List.filter_eq_self.2 hall).symm
    · simp [eraseId, hi, ih h.2]

theorem findId_eq_none_of_not_mem (c : Collection) (id : ObjectId)
    (h : id ∉ c.map Prod.fst) : findId c id = none := by
  induction c with
  | nil => rfl
  | cons hd tl ih =>
    obtain ⟨i, d⟩ := hd
    simp only [List.map_cons, List.mem_cons, not_or] at h
    have hi : ¬ i = id := fun e => h.1 e.symm
    simp [findId, hi, ih h.2]

theorem nodup_fst_filter (c : Collection) (q : ObjectId × Doc → Bool)
    (h : (c.map Prod.fst).Nodup) : ((c.filter q).map Prod.fst).Nodup :=
  List.Nodup.sublist (List.Sublist.map _ (List.filter_sublist c)) h

/-- Erasing, one after the other, the keys of the documents that satisfy `q`
leaves the documents that do not satisfy `q`, when keys are unique. -/
theorem foldl_eraseId_filter (c : Collection) (q : Doc → Bool)
    (h : (c.map Prod.fst).Nodup) :
    (c.filter (fun p => q p.2)).foldl (fun acc p => eraseId acc p.1) c
      = c.filter (fun p => !q p.2) := by
  have key : ∀ (ps acc : Collection), (acc.map Prod.fst).Nodup →
      ps.foldl (fun acc p => eraseId acc p.1) acc
        = acc.filter (fun p => decide (p.1 ∉ ps.map Prod.fst)) := by
    intro ps
    induction ps with
    | nil => intro acc _; simp
    | cons hd tl ih =>
      intro acc hacc
      simp only [List.foldl_cons]
      rw [eraseId_eq_filter acc hd.1 hacc, ih _ (nodup_fst_filter acc _ hacc),
        List.filter_filter]
      apply List.filter_congr
      intro p _
      by_cases h1 : p.1 ∈ tl.map Prod.fst <;> by_cases h2 : p.1 = hd.1 <;> simp [h1, h2]
  rw [key _ _ h]
  apply List.filter_congr
  intro p hp
  by_cases hq : q p.2 = true
  · have : p.1 ∈ (c.filter (fun p => q p.2)).map Prod.fst :=
      List.mem_map_of_mem Prod.fst (List.mem_filter.2 ⟨hp, hq⟩)
    simp [hq, this]
  · have hq' : q p.2 = false := by simpa using hq
    have : p.1 ∉ (c.filter (fun p => q p.2)).map Prod.fst := by
      intro hmem
      obtain ⟨p', hp', hfst⟩ := List.mem_map.1 hmem
      obtain ⟨hp'c, hq'p⟩ := List.mem_filter.1 hp'
      have hinj := List.inj_on_of_nodup_map h hp'c hp hfst
      rw [hinj] at hq'p
      simp [hq'] at hq'p
    simp [hq', this]

/-- The loop of RemoveOrganization over the delivered projects `ps`: the calls
it adds, and, when all of them succeed, that it falls through and what the
collections hold afterwards. -/
theorem removeProjectsLoop_spec (ps : List (ObjectId × Doc)) (db : DB) :
    ∃ L, (removeProjectsLoop ps db).2.calls = db.calls ++ L ∧
      ((∀ c ∈ L, c.err = none) →
        (removeProjectsLoop ps db).1 = none ∧
        (removeProjectsLoop ps db).2.cols = fun c =>
          if c = Coll.Jobs then
            (db.cols Coll.Jobs).filter
              (fun j => !(ps.any (fun p => matchesSel "project_id" (Value.oid p.1) j.2)))
          else if c = Coll.JobTemplates then
            (db.cols Coll.JobTemplates).filter
              (fun j => !(ps.any (fun p => matchesSel "project_id" (Value.oid p.1) j.2)))
          else if c = Coll.Projects then
            ps.foldl (fun acc p => eraseId acc p.1) (db.cols Coll.Projects)
          else db.cols c) := by
  induction ps generalizing db with
  | nil =>
    refine ⟨[], by simp [removeProjectsLoop], fun _ => ⟨rfl, ?_⟩⟩
    funext c
    cases c <;> simp [removeProjectsLoop]
  | cons hd tl ih =>
    obtain ⟨pid, d⟩ := hd
    have c1 := RemoveAll_calls Coll.Jobs "project_id" (Value.oid pid) db
    have k1 := RemoveAll_cols Coll.Jobs "project_id" (Value.oid pid) db
    rcases h1 : RemoveAll Coll.Jobs "project_id" (Value.oid pid) db with ⟨⟨e1, n1⟩, db1⟩
    rw [h1] at c1 k1
    simp only at c1 k1
    cases e1 with
    | some e =>
      refine ⟨[⟨Coll.Jobs, Method.RemoveAll, some e⟩], ?_, ?_⟩
      · simp only [removeProjectsLoop, h1]
        simp [DB.Println, c1]
      · intro hall
        simp at hall
    | none =>
      have k1' := k1 rfl
      have c2 := RemoveAll_calls Coll.JobTemplates "project_id" (Value.oid pid)
        (db1.Println ("Jobs remove info: " ++ toString n1))
      have k2 := RemoveAll_cols Coll.JobTemplates "project_id" (Value.oid pid)
        (db1.Println ("Jobs remove info: " ++ toString n1))
      rcases h2 : RemoveAll Coll.JobTemplates "project_id" (Value.oid pid)
        (db1.Println ("Jobs remove info: " ++ toString n1)) with ⟨⟨e2, n2⟩, db2⟩
      rw [h2] at c2 k2
      simp only [DB.Println] at c2 k2
      cases e2 with
      | some e =>
        refine ⟨[⟨Coll.Jobs, Method.RemoveAll, none⟩,
          ⟨Coll.JobTemplates, Method.RemoveAll, some e⟩], ?_, ?_⟩
        · simp only [removeProjectsLoop, h1, h2]
          simp [DB.Println, c1, c2]
        · intro hall
          simp at hall
      | none =>
        have k2' := k2 rfl
        have c3 := RemoveId_calls Coll.Projects pid
          (db2.Println ("Job Template remove info: " ++ toString n2))
        have k3 := RemoveId_cols Coll.Projects pid
          (db2.Println ("Job Template remove info: " ++ toString n2))
        rcases h3 : RemoveId Coll.Projects pid
          (db2.Println ("Job Template remove info: " ++ toString n2)) with ⟨e3, db3⟩
        rw [h3] at c3 k3
        simp only [DB.Println] at c3 k3
        cases e3 with
        | some e =>
          refine ⟨[⟨Coll.Jobs, Method.RemoveAll, none⟩,
            ⟨Coll.JobTemplates, Method.RemoveAll, none⟩,
            ⟨Coll.Projects, Method.RemoveId, some e⟩], ?_, ?_⟩
          · simp only [removeProjectsLoop, h1, h2, h3]
            simp [DB.Println, c1, c2, c3]
          · intro hall
            simp at hall
        | none =>
          have k3' := k3 rfl
          obtain ⟨L, hL, hLok⟩ := ih db3
          refine ⟨[⟨Coll.Jobs, Method.RemoveAll, none⟩,
            ⟨Coll.JobTemplates, Method.RemoveAll, none⟩,
            ⟨Coll.Projects, Method.RemoveId, none⟩] ++ L, ?_, ?_⟩
          · simp only [removeProjectsLoop, h1, h2, h3]
            simp [hL, c1, c2, c3]
          · intro hall
            have hall' : ∀ c ∈ L, c.err = none :=
              fun c hc => hall c (List.mem_append_right _ hc)
            obtain ⟨hnone, hcols⟩ := hLok hall'
            simp only [removeProjectsLoop, h1, h2, h3]
            refine ⟨hnone, ?_⟩
            rw [hcols, k3', k2', k1']
            funext c
            by_cases hJ : c = Coll.Jobs
            · subst hJ
              simp only [if_true, reduceCtorEq, if_false, List.filter_filter, List.any_cons]
              apply List.filter_congr
              intro j _
              cases matchesSel "project_id" (Value.oid pid) j.2 <;> simp
            · by_cases hT : c = Coll.JobTemplates
              · subst hT
                simp only [if_true, reduceCtorEq, if_false, List.filter_filter, List.any_cons]
                apply List.filter_congr
                intro j _
                cases matchesSel "project_id" (Value.oid pid) j.2 <;> simp
              · by_cases hP : c = Coll.Projects
                · subst hP
                  simp
                · simp [hJ, hT, hP]

/-- C19. When every store call of RemoveOrganization succeeds (in a store whose
`_id`s are unique within Projects and within Organizations), the reply is 204
and afterwards: no Project has the organization's ID as organization_id; no Job
and no JobTemplate has as project_id the ID of a Project that had it; no
Inventory has it as organization_id; the Organization itself is gone. All other
documents are unchanged: each of these collections is the former one without
exactly those documents, and the collections the handler does not remove from
(the activity stream apart, which gets the record of the deletion) are as
before. -/
theorem C19_remove_organization_cascade (organization : Organization) (user : User)
    (actId : ObjectId) (actNow : Time) (db : DB)
    (hP : ((db.cols Coll.Projects).map Prod.fst).Nodup)
    (hO : ((db.cols Coll.Organizations).map Prod.fst).Nodup)
    (hok : ∀ c ∈ called db (RemoveOrganization organization user actId actNow db).db,
        c.err = none) :
    (RemoveOrganization organization user actId actNow db).replies
      = [Reply.AbortWithStatus 204] ∧
    (∀ p ∈ (RemoveOrganization organization user actId actNow db).db.cols Coll.Projects,
      p.2.get "organization_id" ≠ some (Value.oid organization.ID)) ∧
    (∀ p ∈ db.cols Coll.Projects,
      p.2.get "organization_id" = some (Value.oid organization.ID) →
      (∀ j ∈ (RemoveOrganization organization user actId actNow db).db.cols Coll.Jobs,
        j.2.get "project_id" ≠ some (Value.oid p.1)) ∧
      (∀ j ∈ (RemoveOrganization organization user actId actNow db).db.cols Coll.JobTemplates,
        j.2.get "project_id" ≠ some (Value.oid p.1))) ∧
    (∀ i ∈ (RemoveOrganization organization user actId actNow db).db.cols Coll.Inventories,
      i.2.get "organization_id" ≠ some (Value.oid organization.ID)) ∧
    findId ((RemoveOrganization organization user actId actNow db).db.cols Coll.Organizations)
      organization.ID = none ∧
    (RemoveOrganization organization user actId actNow db).db.cols Coll.Projects
      = (db.cols Coll.Projects).filter
          (fun p => !matchesSel "organization_id" (Value.oid organization.ID) p.2) ∧
    (RemoveOrganization organization user actId actNow db).db.cols Coll.Jobs
      = (db.cols Coll.Jobs).filter (fun j =>
          !(((db.cols Coll.Projects).filter
              (fun p => matchesSel "organization_id" (Value.oid organization.ID) p.2)).any
            (fun p => matchesSel "project_id" (Value.oid p.1) j.2))) ∧
    (RemoveOrganization organization user actId actNow db).db.cols Coll.JobTemplates
      = (db.cols Coll.JobTemplates).filter (fun j =>
          !(((db.cols Coll.Projects).filter
              (fun p => matchesSel "organization_id" (Value.oid organization.ID) p.2)).any
            (fun p => matchesSel "project_id" (Value.oid p.1) j.2))) ∧
    (RemoveOrganization organization user actId actNow db).db.cols Coll.Inventories
      = (db.cols Coll.Inventories).filter
          (fun i => !matchesSel "organization_id" (Value.oid organization.ID) i.2) ∧
    (RemoveOrganization organization user actId actNow db).db.cols Coll.Organizations
      = (db.cols Coll.Organizations).filter (fun o => !decide (o.1 = organization.ID)) ∧
    (∀ c, c ≠ Coll.Projects → c ≠ Coll.Jobs → c ≠ Coll.JobTemplates →
      c ≠ Coll.Inventories → c ≠ Coll.Organizations → c ≠ Coll.ActivityStream →
      (RemoveOrganization organization user actId actNow db).db.cols c = db.cols c) := by
  -- the Find on Projects
  obtain ⟨e0, hc0, hps⟩ := FindIter_calls Coll.Projects "organization_id"
    (Value.oid organization.ID) db
  have hk0 := FindIter_cols Coll.Projects "organization_id" (Value.oid organization.ID) db
  rcases h0 : FindIter Coll.Projects "organization_id" (Value.oid organization.ID) db
    with ⟨projects, db0⟩
  rw [h0] at hc0 hps hk0
  simp only at hc0 hps hk0
  -- the loop
  obtain ⟨L, hL, hLok⟩ := removeProjectsLoop_spec projects db0
  rcases hl : removeProjectsLoop projects db0 with ⟨r1, db1⟩
  rw [hl] at hL hLok
  simp only at hL hLok
  -- the Inventories
  have c4 := RemoveAll_calls Coll.Inventories "organization_id" (Value.oid organization.ID) db1
  have k4 := RemoveAll_cols Coll.Inventories "organization_id" (Value.oid organization.ID) db1
  rcases h4 : RemoveAll Coll.Inventories "organization_id" (Value.oid organization.ID) db1
    with ⟨⟨e4, n4⟩, db4⟩
  rw [h4] at c4 k4
  simp only at c4 k4
  -- the Organization
  have c5 := RemoveId_calls Coll.Organizations organization.ID
    (db4.Println ("Inventory remove info: " ++ toString n4))
  have k5 := RemoveId_cols Coll.Organizations organization.ID
    (db4.Println ("Inventory remove info: " ++ toString n4))
  rcases h5 : RemoveId Coll.Organizations organization.ID
    (db4.Println ("Inventory remove info: " ++ toString n4)) with ⟨e5, db5⟩
  rw [h5] at c5 k5
  simp only [DB.Println] at c5 k5
  -- every call succeeded
  have hcalls : e0 = none ∧ (∀ c ∈ L, c.err = none) ∧ e4 = none ∧ e5 = none := by
    cases r1 with
    | some reply =>
      simp only [RemoveOrganization, h0, hl] at hok
      simp only [called, hL, hc0, List.append_assoc, drop_length_append] at hok
      have hLall : ∀ c ∈ L, c.err = none := fun c hc => hok c (by simp [hc])
      exact absurd (hLok hLall).1 (by simp)
    | none =>
      cases e4 with
      | some e =>
        simp only [RemoveOrganization, h0, hl, h4] at hok
        simp only [called, DB.Println, c4, hL, hc0, List.append_assoc,
          drop_length_append] at hok
        have := hok ⟨Coll.Inventories, Method.RemoveAll, some e⟩ (by simp)
        simp at this
      | none =>
        cases e5 with
        | some e =>
          simp only [RemoveOrganization, h0, hl, h4, h5] at hok
          simp only [called, DB.Println, c5, c4, hL, hc0, List.append_assoc,
            drop_length_append] at hok
          have := hok ⟨Coll.Organizations, Method.RemoveId, some e⟩ (by simp)
          simp at this
        | none =>
          simp only [RemoveOrganization, h0, hl, h4, h5] at hok
          simp only [called, apiAddActivity, addActivity_calls, c5, c4, hL, hc0,
            List.append_assoc, drop_length_append] at hok
          refine ⟨?_, fun c hc => hok c (by simp [hc]), rfl, rfl⟩
          have := hok ⟨Coll.Projects, Method.Find, e0⟩ (by simp)
          simpa using this
  obtain ⟨he0, hLall, he4, he5⟩ := hcalls
  subst he0 he4 he5
  obtain ⟨hr1, hk1⟩ := hLok hLall
  subst hr1
  have hps' := hps rfl
  have k4' := k4 rfl
  have k5' := k5 rfl
  -- the final collections
  have hfinal : (RemoveOrganization organization user actId actNow db).db.cols
      = (addActivity actId actNow organization.ID user.ID
          ("Organization " ++ organization.Name ++ " deleted") "organization" db5).cols := by
    simp only [RemoveOrganization, h0, hl, h4, h5, apiAddActivity]
  have hrep : (RemoveOrganization organization user actId actNow db).replies
      = [Reply.AbortWithStatus 204] := by
    simp only [RemoveOrganization, h0, hl, h4, h5]
  have hcol : ∀ c, c ≠ Coll.ActivityStream →
      (RemoveOrganization organization user actId actNow db).db.cols c = db5.cols c := by
    intro c hc
    rw [hfinal, addActivity_cols]
    split <;> simp [hc]
  have hProj : (RemoveOrganization organization user actId actNow db).db.cols Coll.Projects
      = (db.cols Coll.Projects).filter
          (fun p => !matchesSel "organization_id" (Value.oid organization.ID) p.2) := by
    rw [hcol _ (by decide), k5', k4', hk1, hk0, hps']
    simp only [reduceCtorEq, if_false, if_true]
    exact foldl_eraseId_filter (db.cols Coll.Projects)
      (fun d => matchesSel "organization_id" (Value.oid organization.ID) d) hP
  have hJobs : (RemoveOrganization organization user actId actNow db).db.cols Coll.Jobs
      = (db.cols Coll.Jobs).filter (fun j =>
          !(((db.cols Coll.Projects).filter
              (fun p => matchesSel "organization_id" (Value.oid organization.ID) p.2)).any
            (fun p => matchesSel "project_id" (Value.oid p.1) j.2))) := by
    rw [hcol _ (by decide), k5', k4', hk1, hk0, hps']
    simp only [reduceCtorEq, if_false, if_true]
  have hTpl : (RemoveOrganization organization user actId actNow db).db.cols Coll.JobTemplates
      = (db.cols Coll.JobTemplates).filter (fun j =>
          !(((db.cols Coll.Projects).filter
              (fun p => matchesSel "organization_id" (Value.oid organization.ID) p.2)).any
            (fun p => matchesSel "project_id" (Value.oid p.1) j.2))) := by
    rw [hcol _ (by decide), k5', k4', hk1, hk0, hps']
    simp only [reduceCtorEq, if_false, if_true]
  have hInv : (RemoveOrganization organization user actId actNow db).db.cols Coll.Inventories
      = (db.cols Coll.Inventories).filter
          (fun i => !matchesSel "organization_id" (Value.oid organization.ID) i.2) := by
    rw [hcol _ (by decide), k5', k4', hk1, hk0]
    simp only [reduceCtorEq, if_false, if_true]
  have hOrg : (RemoveOrganization organization user actId actNow db).db.cols Coll.Organizations
      = (db.cols Coll.Organizations).filter (fun o => !decide (o.1 = organization.ID)) := by
    rw [hcol _ (by decide), k5', k4', hk1, hk0]
    simp only [reduceCtorEq, if_false, if_true]
    exact eraseId_eq_filter _ _ hO
  refine ⟨hrep, ?_, ?_, ?_, ?_, hProj, hJobs, hTpl, hInv, hOrg, ?_⟩
  · intro p hp
    rw [hProj] at hp
    have := (List.mem_filter.1 hp).2
    simpa [matchesSel] using this
  · intro p hp hpo
    have hmem : p ∈ (db.cols Coll.Projects).filter
        (fun p => matchesSel "organization_id" (Value.oid organization.ID) p.2) :=
      List.mem_filter.2 ⟨hp, by simpa [matchesSel] using hpo⟩
    refine ⟨?_, ?_⟩
    · intro j hj
      rw [hJobs] at hj
      have := (List.mem_filter.1 hj).2
      simp only [Bool.not_eq_true', List.any_eq_false] at this
      have h2 := this p hmem
      simpa [matchesSel] using h2
    · intro j hj
      rw [hTpl] at hj
      have := (List.mem_filter.1 hj).2
      simp only [Bool.not_eq_true', List.any_eq_false] at this
      have h2 := this p hmem
      simpa [matchesSel] using h2
  · intro i hi
    rw [hInv] at hi
    have := (List.mem_filter.1 hi).2
    simpa [matchesSel] using this
  · rw [hOrg]
    apply findId_eq_none_of_not_mem
    intro hmem
    obtain ⟨o, ho, hfst⟩ := List.mem_map.1 hmem
    have := (List.mem_filter.1 ho).2
    simp [hfst] at this
  · intro c h1 h2 h3 h4' h5' h6
    rw [hcol c h6, k5', k4', hk1, hk0]
    simp [h1, h2, h3, h4', h5']

/-- C19 on the handlers' example store: removing Acme leaves project p2, job j2,
template jt2, inventory i2 and organization o2. -/
theorem C19_remove_organization_cascade_witness :
    ((orgDB.cols Coll.Projects).map Prod.fst).Nodup ∧
    ((orgDB.cols Coll.Organizations).map Prod.fst).Nodup ∧
    (∀ c ∈ called orgDB (RemoveOrganization acme ada "a1" T5 orgDB).db, c.err = none) ∧
    (RemoveOrganization acme ada "a1" T5 orgDB).replies = [Reply.AbortWithStatus 204] ∧
    ((RemoveOrganization acme ada "a1" T5 orgDB).db.cols Coll.Projects).map Prod.fst = ["p2"] ∧
    ((RemoveOrganization acme ada "a1" T5 orgDB).db.cols Coll.Jobs).map Prod.fst = ["j2"] ∧
    ((RemoveOrganization acme ada "a1" T5 orgDB).db.cols Coll.JobTemplates).map Prod.fst
      = ["jt2"] ∧
    ((RemoveOrganization acme ada "a1" T5 orgDB).db.cols Coll.Inventories).map Prod.fst
      = ["i2"] ∧
    ((RemoveOrganization acme ada "a1" T5 orgDB).db.cols Coll.Organizations).map Prod.fst
      = ["o2"] :=
  have h1 : ((orgDB.cols Coll.Projects).map Prod.fst).Nodup := by decide
  have h2 : ((orgDB.cols Coll.Organizations).map Prod.fst).Nodup := by decide
  have h3 : ∀ c ∈ called orgDB (RemoveOrganization acme ada "a1" T5 orgDB).db,
      c.err = none := by
    decide
  have c := C19_remove_organization_cascade acme ada "a1" T5 orgDB h1 h2 h3
  ⟨h1, h2, h3, c.1, by decide, by decide, by decide, by decide, by decide⟩

theorem collectJobs_eq {U J : Type} (JobRead : U → J → Bool) (JobMetadata : J → J) (user : U)
    (delivered jobs : List J) :
    collectJobs JobRead JobMetadata user delivered jobs
      = jobs ++ (delivered.filter (JobRead user)).map JobMetadata := by
  induction delivered generalizing jobs with
  | nil => simp [collectJobs]
  | cons hd tl ih =>
    cases h : JobRead user hd <;> simp [collectJobs, h, ih]

/-- C20. For every user and every sequence of jobs the query delivers, the list
GetJobs pages over is the sequence of the delivered jobs for which
roles.JobRead(user, job) is true, in query order, each with its metadata set;
when GetJobs replies with a page, the status is 200, Count is the length of that
list and Results is the slice of it from Skip to End; and when End does not
exceed Count, every job in Results is a delivered job that the user can read. -/
theorem C20_getJobs_readable {U J : Type} (JobRead : U → J → Bool) (JobMetadata : J → J)
    (NewPagination : Nat → Pagination) (zero : J) (cap : Nat)
    (user : U) (delivered : List J) (closeErr : Bool) :
    collectJobs JobRead JobMetadata user delivered []
      = (delivered.filter (JobRead user)).map JobMetadata ∧
    ∀ code count next prev results,
      GetJobs JobRead JobMetadata NewPagination zero cap user delivered closeErr
        = JobsReply.response code count next prev results →
      code = 200 ∧
      count = ((delivered.filter (JobRead user)).map JobMetadata).length ∧
      sliceExpr zero cap ((delivered.filter (JobRead user)).map JobMetadata)
        (NewPagination count).Skip (NewPagination count).End = some results ∧
      ((NewPagination count).End ≤ (count : Int) →
        results = (((delivered.filter (JobRead user)).map JobMetadata).drop
            (NewPagination count).Skip.toNat).take
            ((NewPagination count).End - (NewPagination count).Skip).toNat ∧
        ∀ r ∈ results, ∃ j ∈ delivered, JobRead user j = true ∧ r = JobMetadata j) := by
  have hc := collectJobs_eq JobRead JobMetadata user delivered []
  simp only [List.nil_append] at hc
  refine ⟨hc, ?_⟩
  intro code count next prev results h
  unfold GetJobs at h
  simp only [hc] at h
  cases closeErr with
  | true => simp at h
  | false =>
    simp only [Bool.false_eq_true, if_false] at h
    split at h
    · simp at h
    · split at h
      · simp at h
      · rename_i rs hrs
        simp only [JobsReply.response.injEq] at h
        obtain ⟨h1, h2, _, _, h5⟩ := h
        subst h1 h2 h5
        refine ⟨rfl, rfl, hrs, ?_⟩
        intro hend
        unfold sliceExpr at hrs
        split at hrs
        · rename_i hb
          simp only [Option.some.injEq] at hrs
          have hres : rs = (((delivered.filter (JobRead user)).map JobMetadata).drop
              (NewPagination ((delivered.filter (JobRead user)).map JobMetadata).length).Skip.toNat).take
              ((NewPagination ((delivered.filter (JobRead user)).map JobMetadata).length).End -
                (NewPagination ((delivered.filter (JobRead user)).map JobMetadata).length).Skip).toNat := by
            rw [← hrs]
            generalize (NewPagination ((delivered.filter (JobRead user)).map JobMetadata).length).Skip
              = lo at hb hend ⊢
            generalize (NewPagination ((delivered.filter (JobRead user)).map JobMetadata).length).End
              = hi at hb hend ⊢
            generalize (delivered.filter (JobRead user)).map JobMetadata = l at hb hend ⊢
            have hlen : lo.toNat + (hi - lo).toNat ≤ l.length := by omega
            rw [List.drop_append_eq_append_drop, List.take_append_eq_append_take]
            have h0 : (hi - lo).toNat - (List.drop lo.toNat l).length = 0 := by
              simp only [List.length_drop]; omega
            have h00 : lo.toNat - l.length = 0 := by omega
            have h01 : (hi - lo).toNat - (l.length - lo.toNat) = 0 := by omega
            simp [h0, h00, h01]
          refine ⟨hres, ?_⟩
          intro r hr
          rw [hres] at hr
          have hmem := List.mem_of_mem_drop (List.mem_of_mem_take hr)
          obtain ⟨j, hj, rfl⟩ := List.mem_map.1 hmem
          obtain ⟨hjd, hjr⟩ := List.mem_filter.1 hj
          exact ⟨j, hjd, hjr, rfl⟩
        · simp at hrs

/-- C20 on the example query: Ada gets her jobs j1 and j3, in order, with their
metadata, and Count = 2; Bob's job j2 is not in Results. -/
theorem C20_getJobs_readable_witness :
    GetJobs exJobRead exJobMetadata exPagination (⟨[]⟩ : Doc) 2 ada exJobs false
      = JobsReply.response 200 2 none none
          [exJobMetadata ⟨[("name", Value.str "j1"), ("owner", Value.oid "u1")]⟩,
           exJobMetadata ⟨[("name", Value.str "j3"), ("owner", Value.oid "u1")]⟩] ∧
    (exPagination 2).End ≤ ((2 : Nat) : Int) ∧
    ∀ r ∈ [exJobMetadata ⟨[("name", Value.str "j1"), ("owner", Value.oid "u1")]⟩,
           exJobMetadata ⟨[("name", Value.str "j3"), ("owner", Value.oid "u1")]⟩],
      ∃ j ∈ exJobs, exJobRead ada j = true ∧ r = exJobMetadata j :=
  have h : GetJobs exJobRead exJobMetadata exPagination (⟨[]⟩ : Doc) 2 ada exJobs false
      = JobsReply.response 200 2 none none
          [exJobMetadata ⟨[("name", Value.str "j1"), ("owner", Value.oid "u1")]⟩,
           exJobMetadata ⟨[("name", Value.str "j3"), ("owner", Value.oid "u1")]⟩] := by
    decide
  have he : (exPagination 2).End ≤ ((2 : Nat) : Int) := by decide
  have c := (C20_getJobs_readable exJobRead exJobMetadata exPagination (⟨[]⟩ : Doc) 2 ada
    exJobs false).2 200 2 none none _ h
  ⟨h, he, (c.2.2.2 he).2⟩


/-- C21 (failing input). AddUser is called by Ada (the user in gin.Context) with
a valid body for Bob (username "bob", first name "Robert", last name "Stone",
email "bob@example.org"), every store call succeeding. The reply is 201 and a
user is stored under the fresh ID with Created = now, but its username, first
name, last name and email are Ada's, not those of the request body; the reply
and the stored user are the same whatever valid body is sent. -/
theorem C21_addUser_persists_context_user :
    (∀ c ∈ called orgDB (AddUser ada (Except.ok bobReq) "u3" T5 "a1" T5 orgDB).db,
        c.err = none) ∧
    findId (orgDB.cols Coll.Users) "u3" = none ∧
    (AddUser ada (Except.ok bobReq) "u3" T5 "a1" T5 orgDB).replies
      = [Reply.JSON 201 (Body.user
          { ID := "u3", Username := "ada", FirstName := "Ada", LastName := "Lovelace",
            Email := "ada@example.org", Created := T5 })] ∧
    (findId ((AddUser ada (Except.ok bobReq) "u3" T5 "a1" T5 orgDB).db.cols Coll.Users)
        "u3").map
        (fun d => (d.get "username", d.get "first_name", d.get "last_name", d.get "email",
          d.get "created"))
      = some (some (Value.str "ada"), some (Value.str "Ada"), some (Value.str "Lovelace"),
          some (Value.str "ada@example.org"), some (Value.time T5)) ∧
    bobReq.Username ≠ "ada" ∧ bobReq.FirstName ≠ "Ada" ∧ bobReq.LastName ≠ "Lovelace" ∧
    bobReq.Email ≠ "ada@example.org" ∧
    (∀ req : User,
      (AddUser ada (Except.ok req) "u3" T5 "a1" T5 orgDB).replies
        = (AddUser ada (Except.ok bobReq) "u3" T5 "a1" T5 orgDB).replies ∧
      (AddUser ada (Except.ok req) "u3" T5 "a1" T5 orgDB).db.cols Coll.Users
        = (AddUser ada (Except.ok bobReq) "u3" T5 "a1" T5 orgDB).db.cols Coll.Users) :=
  ⟨by decide, by decide, by decide, by decide, by decide, by decide, by decide, by decide,
    fun _ => ⟨rfl, rfl⟩⟩

end Tensor
